import Mathlib

/-!
Verification development for the Microsprings inventory-management system.

The Python sources under `manufacturing/`, `authentication/` and `processes/`
are shallowly embedded: Django rows become Lean structures, querysets become
lists, `Decimal`/float arithmetic becomes exact rational arithmetic on `ℚ`,
and each HTTP action or service method becomes a pure function from the
relevant state fragment to the updated fragment.  Timestamps are opaque `Nat`
ticks supplied by the caller (the embedding of `timezone.now()`).

Status fields are kept as the literal strings the source stores
(`"reserved"`, `"locked"`, `"in_progress"`, ...), so that the embedded code
matches the Python string comparisons one-for-one.

The batch `notes` TextField is used by the source only as a stream of
`PROCESS_<id>_STATUS:<state>;` markers (plus free text the marker logic never
touches).  It is embedded as the list of those markers, a pair
`(process execution id, state)` per marker, in occurrence order:
`re.sub("PROCESS_<id>_STATUS:[^;]*;", "", notes)` removes exactly the markers
of that process execution (ids are decimal digits followed by the `_STATUS:`
delimiter, so the pattern for id `i` cannot match inside a marker of a
different id), which is `List.filter`; appending `PROCESS_<id>_STATUS:<s>;`
is appending one marker; the substring test for `PROCESS_<id>_STATUS:completed;`
is list membership.
-/

namespace MSIMS

/-- One `PROCESS_<id>_STATUS:<state>;` marker of a batch notes stream:
process-execution id paired with the recorded state string. -/
abbrev Marker := Nat × String

/-- Row of `manufacturing.models.allocations.RawMaterialAllocation` as the
service code reads and writes it: surrogate id, owning MO id, raw-material id,
quantity in kg, status string, swap flag, creation order (`allocated_at`,
an opaque tick), lock bookkeeping and the swap target pointer. -/
structure Allocation where
  id : Nat
  mo : Nat
  raw_material : Nat
  allocated_quantity_kg : ℚ
  status : String
  can_be_swapped : Bool
  allocated_at : Nat
  locked_at : Option Nat := none
  locked_by : Option Nat := none
  swapped_to_mo : Option Nat := none
deriving Repr, DecidableEq

/-- Row of `RMAllocationHistory` (append-only log written by the service). -/
structure HistoryRow where
  allocation : Nat
  action : String
  from_mo : Option Nat
  to_mo : Option Nat
  quantity_kg : ℚ
  performed_by : Nat
deriving Repr, DecidableEq

/-- The fields of `ManufacturingOrder` the embedded code reads.
`tolerance_percentage` is `Option ℚ` (nullable column); `rm_required_kg` and
`quantity` are kept as rationals, with `0` playing the role of the falsy
values (`None`/`0`) in the Python truthiness tests on `rm_required_kg`. -/
structure MORec where
  id : Nat
  status : String
  priority : String
  quantity : ℚ
  tolerance_percentage : Option ℚ
  rm_required_kg : ℚ
  actual_end_date : Option Nat := none
deriving Repr, DecidableEq

/-- The fields of the product master the embedded code reads.
`grams_per_product` and `pcs_per_strip` use `0` for the falsy values of the
Python truthiness tests; `strips_calc` is `some r` when the product class has
`calculate_strips_required` (the `hasattr` test) and that call returns
`strips_required = r` for the MO quantity, `none` when the attribute is
absent. -/
structure ProductRec where
  material_type : String
  grams_per_product : ℚ
  pcs_per_strip : ℚ
  strips_calc : Option ℚ
deriving Repr, DecidableEq

/-- The fields of `Batch` the embedded code reads and writes.
`planned_quantity` is the stored integer (grams for coil, strips for sheet)
as a rational; `notes` is the marker stream (see the file comment). -/
structure BatchRec where
  id : Nat
  status : String
  planned_quantity : ℚ
  notes : List Marker
  actual_quantity_completed : ℚ := 0
  actual_end_date : Option Nat := none
  progress_percentage : ℚ := 0
  scrap_quantity : ℚ := 0
deriving Repr, DecidableEq

/-- The fields of `MOProcessExecution` the embedded code reads and writes.
`process` is the work-centre (process) id, used by the supervisor cascade. -/
structure ExecRec where
  id : Nat
  mo : Nat
  process : Nat
  sequence_order : Nat
  status : String
  progress_percentage : ℚ
  actual_end_time : Option Nat
  assigned_supervisor : Option Nat := none
deriving Repr, DecidableEq

/-- Python `x or default` on the nullable `tolerance_percentage` column:
`mo.tolerance_percentage or Decimal('2.00')` (both `None` and `0.00` are
falsy). -/
def toleranceOf (mo : MORec) : ℚ :=
  match mo.tolerance_percentage with
  | none => 2
  | some t => if t = 0 then 2 else t

/-- Sum of `allocated_quantity_kg` over a list of allocations. -/
def sumQty (l : List Allocation) : ℚ :=
  l.foldr (fun a acc => a.allocated_quantity_kg + acc) 0

theorem sumQty_nil : sumQty [] = 0 := rfl

theorem sumQty_cons (a : Allocation) (l : List Allocation) :
    sumQty (a :: l) = a.allocated_quantity_kg + sumQty l := rfl

theorem sumQty_append (l1 l2 : List Allocation) :
    sumQty (l1 ++ l2) = sumQty l1 + sumQty l2 := by
  induction l1 with
  | nil => simp [sumQty]
  | cons a t ih =>
      simp only [List.cons_append, sumQty_cons, ih]
      ring

/-! ## Batch notes markers (C10)

`BatchProcessExecutionViewSet.start_batch_process` (batch_views.py:96-109) and
`complete_batch_process` (batch_views.py:188-200) both rewrite the marker for
the touched process execution by first deleting every existing marker of that
execution (`re.sub`) and then appending exactly one new marker. -/

/-- Embedding of
`re.sub(f"PROCESS_<pid>_STATUS:[^;]*;", "", notes)` on the marker stream:
drop every marker of process execution `pid`. -/
def removeProcMarkers (notes : List Marker) (pid : Nat) : List Marker :=
  notes.filter (fun m => m.1 ≠ pid)

/-- Embedding of the marker rewrite shared by `start_batch_process` and
`complete_batch_process`: remove all markers of `pid`, then append one
marker recording `state` (batch_views.py:101-108 and 192-199). -/
def setProcStatus (notes : List Marker) (pid : Nat) (state : String) : List Marker :=
  removeProcMarkers notes pid ++ [(pid, state)]

/-- Marker rewrite performed by `start_batch_process` (state `in_progress`). -/
def startMarkerRewrite (notes : List Marker) (pid : Nat) : List Marker :=
  setProcStatus notes pid "in_progress"

/-- Marker rewrite performed by `complete_batch_process` (state `completed`). -/
def completeMarkerRewrite (notes : List Marker) (pid : Nat) : List Marker :=
  setProcStatus notes pid "completed"

/-- Number of status markers a notes stream holds for process execution
`pid`. -/
def markerCount (notes : List Marker) (pid : Nat) : Nat :=
  (notes.filter (fun m => m.1 = pid)).length

/-- A notes stream is single-valued when no process execution has two status
markers at once. -/
def SingleValued (notes : List Marker) : Prop :=
  ∀ pid : Nat, markerCount notes pid ≤ 1

theorem markerCount_setProcStatus (notes : List Marker) (pid q : Nat)
    (state : String) :
    markerCount (setProcStatus notes pid state) q =
      if q = pid then 1 else markerCount notes q := by
  unfold markerCount setProcStatus removeProcMarkers
  rcases Decidable.em (q = pid) with h | h
  · subst h
    simp [List.filter_append, List.filter_filter]
  · have hfun : (fun a : Marker => decide (a.1 = q) && !decide (a.1 = pid)) =
        fun m : Marker => decide (m.1 = q) := by
      funext m
      by_cases hm : m.1 = q
      · simp [hm, h]
      · simp [hm]
    simp [List.filter_append, List.filter_filter, h, Ne.symm h, hfun]

/-- The batch's `in_process` status marker test used by the views:
does the notes stream contain `PROCESS_<pid>_STATUS:completed;`? -/
def hasCompletedMarker (notes : List Marker) (pid : Nat) : Bool :=
  notes.contains (pid, "completed")

/-- C10: both the start rewrite and the complete rewrite leave exactly one
status marker for the touched process execution and do not disturb the
marker count of any other process execution; consequently, starting from a
single-valued notes stream, both operations keep it single-valued. -/
theorem batch_notes_markers_single_valued (notes : List Marker) (pid : Nat) :
    markerCount (startMarkerRewrite notes pid) pid = 1 ∧
    markerCount (completeMarkerRewrite notes pid) pid = 1 ∧
    (∀ q : Nat, q ≠ pid →
      markerCount (startMarkerRewrite notes pid) q = markerCount notes q ∧
      markerCount (completeMarkerRewrite notes pid) q = markerCount notes q) ∧
    (SingleValued notes →
      SingleValued (startMarkerRewrite notes pid) ∧
      SingleValued (completeMarkerRewrite notes pid)) := by
  refine ⟨?_, ?_, ?_, ?_⟩
  · simp [startMarkerRewrite, markerCount_setProcStatus]
  · simp [completeMarkerRewrite, markerCount_setProcStatus]
  · intro q hq
    constructor
    · simp [startMarkerRewrite, markerCount_setProcStatus, hq]
    · simp [completeMarkerRewrite, markerCount_setProcStatus, hq]
  · intro hsv
    constructor
    · intro q
      rcases Decidable.em (q = pid) with h | h
      · simp [startMarkerRewrite, markerCount_setProcStatus, h]
      · simpa [startMarkerRewrite, markerCount_setProcStatus, h] using hsv q
    · intro q
      rcases Decidable.em (q = pid) with h | h
      · simp [completeMarkerRewrite, markerCount_setProcStatus, h]
      · simpa [completeMarkerRewrite, markerCount_setProcStatus, h] using hsv q

/-- Witness for C10: concrete run of the single-valued preservation on a
stream that already holds markers for executions 3 and 5. -/
theorem batch_notes_markers_single_valued_witness :
    SingleValued [(3, "in_progress"), (5, "completed")] ∧
    SingleValued (startMarkerRewrite [(3, "in_progress"), (5, "completed")] 3) ∧
    SingleValued (completeMarkerRewrite [(3, "in_progress"), (5, "completed")] 3) := by
  have hsv : SingleValued [(3, "in_progress"), (5, "completed")] := by
    intro pid
    unfold markerCount
    rcases Decidable.em (pid = 3) with h | h
    · simp [h]
    · rcases Decidable.em (pid = 5) with h5 | h5
      · simp [h5]
      · simp [h, h5, Ne.symm h, Ne.symm h5]
  exact ⟨hsv,
    ((batch_notes_markers_single_valued [(3, "in_progress"), (5, "completed")] 3).2.2.2 hsv).1,
    ((batch_notes_markers_single_valued [(3, "in_progress"), (5, "completed")] 3).2.2.2 hsv).2⟩

/-! ## Batch process completion arithmetic (C7)

`BatchProcessCompletionCreateSerializer.validate`
(serializers/supervisor_serializers.py:211-228) and
`BatchProcessCompletionViewSet.create` (views/supervisor_views.py:413-484). -/

/-- The quantity fields the completion serializer validates. -/
structure CompletionInput where
  input_quantity_kg : ℚ
  ok_quantity_kg : ℚ
  scrap_quantity_kg : ℚ
  rework_quantity_kg : ℚ
deriving Repr, DecidableEq

/-- Validation errors raised by the completion serializer: a negative
quantity field (named), or the OK+Scrap+Rework vs Input mismatch. -/
inductive CompletionError where
  | negativeQuantity (field : String)
  | quantityMismatch
deriving Repr, DecidableEq

/-- Embedding of `BatchProcessCompletionCreateSerializer.validate`
(supervisor_serializers.py:211-228): each quantity field is checked for
negativity in declaration order, then `ok + scrap + rework` must equal
`input` within a `Decimal('0.01')` tolerance. -/
def completionValidate (d : CompletionInput) : Except CompletionError CompletionInput :=
  if d.input_quantity_kg < 0 then .error (.negativeQuantity "input_quantity_kg")
  else if d.ok_quantity_kg < 0 then .error (.negativeQuantity "ok_quantity_kg")
  else if d.scrap_quantity_kg < 0 then .error (.negativeQuantity "scrap_quantity_kg")
  else if d.rework_quantity_kg < 0 then .error (.negativeQuantity "rework_quantity_kg")
  else if (1 : ℚ)/100 <
      |d.ok_quantity_kg + d.scrap_quantity_kg + d.rework_quantity_kg - d.input_quantity_kg| then
    .error .quantityMismatch
  else .ok d

/-- Row of `BatchProcessCompletion` written by the viewset `create`. -/
structure CompletionRow where
  batch : Nat
  process_execution : Nat
  quantities : CompletionInput
deriving Repr, DecidableEq

/-- Embedding of `BatchProcessCompletionViewSet.create`
(supervisor_views.py:413-436) restricted to the completion table:
`serializer.is_valid(raise_exception=True)` aborts the request before the
transaction opens, so nothing is written unless validation passes; on
success one completion row is appended. -/
def completionCreate (completions : List CompletionRow) (batchId pid : Nat)
    (d : CompletionInput) : List CompletionRow × Except CompletionError CompletionRow :=
  match completionValidate d with
  | .error e => (completions, .error e)
  | .ok v =>
      let row : CompletionRow :=
        { batch := batchId, process_execution := pid, quantities := v }
      (completions ++ [row], .ok row)

/-- C7: the completion serializer accepts exactly the inputs whose four
quantities are non-negative and whose `ok + scrap + rework` deviates from
`input` by at most 0.01 kg, and a rejected input writes no completion row
(and an accepted one appends exactly the submitted row). -/
theorem completion_validation_tolerance (d : CompletionInput)
    (completions : List CompletionRow) (batchId pid : Nat) :
    (completionValidate d = .ok d ↔
      (0 ≤ d.input_quantity_kg ∧ 0 ≤ d.ok_quantity_kg ∧
       0 ≤ d.scrap_quantity_kg ∧ 0 ≤ d.rework_quantity_kg ∧
       |d.ok_quantity_kg + d.scrap_quantity_kg + d.rework_quantity_kg -
          d.input_quantity_kg| ≤ 1/100)) ∧
    (∀ e : CompletionError, completionValidate d = .error e →
      (completionCreate completions batchId pid d).1 = completions) ∧
    (completionValidate d = .ok d →
      (completionCreate completions batchId pid d).1 =
        completions ++ [{ batch := batchId, process_execution := pid, quantities := d }]) := by
  refine ⟨?_, ?_, ?_⟩
  · unfold completionValidate
    by_cases h1 : d.input_quantity_kg < 0
    · simp [h1]
    by_cases h2 : d.ok_quantity_kg < 0
    · simp [h1, h2]
    by_cases h3 : d.scrap_quantity_kg < 0
    · simp [h1, h2, h3]
    by_cases h4 : d.rework_quantity_kg < 0
    · simp [h1, h2, h3, h4]
    by_cases h5 : (1 : ℚ)/100 <
        |d.ok_quantity_kg + d.scrap_quantity_kg + d.rework_quantity_kg - d.input_quantity_kg|
    · simp [h1, h2, h3, h4, h5, le_of_not_lt, not_le_of_lt h5]
    · simp [h1, h2, h3, h4, h5, le_of_not_lt h1, le_of_not_lt h2, le_of_not_lt h3,
        le_of_not_lt h4, le_of_not_lt h5]
  · intro e he
    unfold completionCreate
    rw [he]
  · intro hok
    unfold completionCreate
    rw [hok]

/-- Witness for C7, covering the tolerance boundary: a deviation of exactly
0.01 kg (input 10, ok 9.59, scrap 0.2, rework 0.2) is accepted and the row is
written, while a deviation of 0.011 kg (input 10, ok 10.011, scrap 0,
rework 0) fails validation and writes nothing. -/
theorem completion_validation_tolerance_witness :
    (completionValidate
        { input_quantity_kg := 10, ok_quantity_kg := 959/100,
          scrap_quantity_kg := 2/10, rework_quantity_kg := 2/10 } =
      .ok { input_quantity_kg := 10, ok_quantity_kg := 959/100,
            scrap_quantity_kg := 2/10, rework_quantity_kg := 2/10 }) ∧
    (completionCreate []  7 9
        { input_quantity_kg := 10, ok_quantity_kg := 10011/1000,
          scrap_quantity_kg := 0, rework_quantity_kg := 0 }).1 = [] := by
  constructor
  · have h := (completion_validation_tolerance
      { input_quantity_kg := 10, ok_quantity_kg := 959/100,
        scrap_quantity_kg := 2/10, rework_quantity_kg := 2/10 } [] 7 9).1
    refine h.mpr ⟨by norm_num, by norm_num, by norm_num, by norm_num, ?_⟩
    rw [show (959/100 + 2/10 + 2/10 - 10 : ℚ) = -(1/100) by norm_num]
    rw [abs_neg, abs_of_nonneg (by norm_num : (0:ℚ) ≤ 1/100)]
  · have habs : |(10011/1000 : ℚ) + 0 + 0 - 10| = 11/1000 := by
      rw [show ((10011/1000 : ℚ) + 0 + 0 - 10) = 11/1000 by norm_num]
      exact abs_of_nonneg (by norm_num)
    have hv : completionValidate
        { input_quantity_kg := 10, ok_quantity_kg := 10011/1000,
          scrap_quantity_kg := 0, rework_quantity_kg := 0 } =
        .error .quantityMismatch := by
      unfold completionValidate
      norm_num [habs]
      intro hle
      rw [abs_of_nonneg (by norm_num : (0:ℚ) ≤ 11/1000)] at hle
      norm_num at hle
    exact (completion_validation_tolerance
      { input_quantity_kg := 10, ok_quantity_kg := 10011/1000,
        scrap_quantity_kg := 0, rework_quantity_kg := 0 } [] 7 9).2.1
      .quantityMismatch hv

/-! ## RM allocation service: locking (C4, C5)

`RMAllocationService.lock_allocations_for_mo` (rm_allocation.py:248-295) and
`RMAllocationService.lock_allocations_for_batch` (rm_allocation.py:346-546).
The queryset handed to each function (the MO's `reserved` allocations,
ordered by `allocated_at`) is the list parameter; rows of other MOs or other
statuses are never read or written by these functions. -/

/-- Stable insertion of `a` into `l` in front of the first element `b` with
`le a b`. -/
def insertSortedBy {α : Type} (le : α → α → Bool) (a : α) : List α → List α
  | [] => [a]
  | b :: rest => if le a b then a :: b :: rest else b :: insertSortedBy le a rest

/-- Stable insertion sort, the embedding of a Django `order_by`. -/
def sortWith {α : Type} (le : α → α → Bool) : List α → List α
  | [] => []
  | a :: rest => insertSortedBy le a (sortWith le rest)

theorem mem_insertSortedBy {α : Type} (le : α → α → Bool) (a x : α)
    (l : List α) : x ∈ insertSortedBy le a l ↔ x = a ∨ x ∈ l := by
  induction l with
  | nil => simp [insertSortedBy]
  | cons b rest ih =>
      unfold insertSortedBy
      cases hle : le a b
      · simp only [Bool.false_eq_true, if_false, List.mem_cons, ih]
        tauto
      · simp only [if_true, List.mem_cons]

theorem mem_sortWith {α : Type} (le : α → α → Bool) (x : α) (l : List α) :
    x ∈ sortWith le l ↔ x ∈ l := by
  induction l with
  | nil => simp [sortWith]
  | cons a rest ih => simp [sortWith, mem_insertSortedBy, ih]

theorem sumQty_insertSortedBy (le : Allocation → Allocation → Bool)
    (a : Allocation) (l : List Allocation) :
    sumQty (insertSortedBy le a l) = a.allocated_quantity_kg + sumQty l := by
  induction l with
  | nil => simp [insertSortedBy, sumQty_cons]
  | cons b rest ih =>
      unfold insertSortedBy
      cases hle : le a b
      · simp only [Bool.false_eq_true, if_false, sumQty_cons, ih]
        ring
      · simp only [if_true, sumQty_cons]

theorem sumQty_sortWith (le : Allocation → Allocation → Bool)
    (l : List Allocation) : sumQty (sortWith le l) = sumQty l := by
  induction l with
  | nil => rfl
  | cons a rest ih => simp [sortWith, sumQty_insertSortedBy, sumQty_cons, ih]

/-- Comparison used by `order_by('allocated_at')`. -/
def allocatedAtLE (a b : Allocation) : Bool :=
  decide (a.allocated_at ≤ b.allocated_at)

/-- Modelled from the spec: `RawMaterialAllocation.lock_allocation` lives in
`manufacturing/models/allocations.py`, which is not among the provided
sources.  Spec §4.3 Lock: given a `reserved` allocation, mark it `locked`,
record `locked_at` and the acting user, touch no stock; `locked` allocations
are not swappable.  It reports success only for a reserved allocation (the
callers test the returned flag). -/
def lock_allocation (a : Allocation) (user now : Nat) : Bool × Allocation :=
  if a.status = "reserved" then
    (true,
     { a with
       status := "locked"
       can_be_swapped := false
       locked_at := some now
       locked_by := some user })
  else
    (false, a)

/-- Loop body of `lock_allocations_for_mo` (rm_allocation.py:274-289):
rewritten rows, history rows, and the locked counter. -/
def lockMoLoop (moId user now : Nat) :
    List Allocation → List Allocation × List HistoryRow × Nat
  | [] => ([], [], 0)
  | a :: rest =>
      let r := lock_allocation a user now
      let tail := lockMoLoop moId user now rest
      if r.1 then
        (r.2 :: tail.1,
         { allocation := a.id, action := "locked", from_mo := none,
           to_mo := some moId, quantity_kg := a.allocated_quantity_kg,
           performed_by := user } :: tail.2.1,
         tail.2.2 + 1)
      else
        (r.2 :: tail.1, tail.2.1, tail.2.2)

/-- Result of `lock_allocations_for_mo`. -/
structure LockMoOutcome where
  allocs : List Allocation
  history : List HistoryRow
  success : Bool
  locked_count : Nat
deriving Repr, DecidableEq

/-- Embedding of `RMAllocationService.lock_allocations_for_mo`
(rm_allocation.py:248-295): `reserved` is the queryset
`filter(mo, status='reserved')`; with no rows the call fails, otherwise every
row is passed to `lock_allocation` and each success appends a history row.
The function reads and writes no stock balance. -/
def lockAllocationsForMo (moId : Nat) (reserved : List Allocation)
    (user now : Nat) : LockMoOutcome :=
  if reserved.isEmpty then
    { allocs := reserved, history := [], success := false, locked_count := 0 }
  else
    let r := lockMoLoop moId user now reserved
    { allocs := r.1, history := r.2.1, success := true, locked_count := r.2.2 }

/-- Batch RM requirement as `lock_allocations_for_batch` computes it
(rm_allocation.py:376-418): coil uses grams × (1 + tolerance/100); sheet
uses the MO-total-strips proportion of `mo.rm_required_kg` with the
`calculate_strips_required` / `pcs_per_strip` fallbacks; every remaining
case falls back to `mo.rm_required_kg` (or 0 when that is falsy). -/
def batchRmKgService (mo : MORec) (product : ProductRec) (planned : ℚ) : ℚ :=
  if product.material_type = "coil" ∧ product.grams_per_product ≠ 0 then
    (planned / 1000) * (1 + toleranceOf mo / 100)
  else if product.material_type = "sheet" ∧ product.pcs_per_strip ≠ 0 then
    let mo_total_strips :=
      match product.strips_calc with
      | some s => s
      | none =>
          if 0 < product.pcs_per_strip then mo.quantity / product.pcs_per_strip
          else mo.quantity
    if 0 < mo_total_strips ∧ mo.rm_required_kg ≠ 0 then
      mo.rm_required_kg * (planned / mo_total_strips)
    else
      mo.rm_required_kg
  else
    mo.rm_required_kg

/-- Decrement of `RMStockBalanceHeat.total_available_quantity_kg` on the
first stock row of the material
(`objects.filter(raw_material=...).first()`, rm_allocation.py:491-498);
with no matching row the stock table is left alone. -/
def decStockFirst : List (Nat × ℚ) → Nat → ℚ → List (Nat × ℚ)
  | [], _, _ => []
  | r :: rest, m, q =>
      if r.1 = m then (r.1, r.2 - q) :: rest else r :: decStockFirst rest m q

/-- Ghost record of one split performed by `lock_allocations_for_batch`:
the original reserved row, the fresh locked child, the surviving parent row
(`none` when the parent was deleted), and the remaining need the split
served. -/
structure SplitRec where
  original : Allocation
  child : Allocation
  parentAfter : Option Allocation
  remainingNeeded : ℚ
deriving Repr, DecidableEq

/-- Accumulator of the `lock_allocations_for_batch` loop. -/
structure LockBatchAcc where
  out : List Allocation
  stock : List (Nat × ℚ)
  history : List HistoryRow
  locked_count : Nat
  total_locked : ℚ
  splits : List SplitRec
  fresh : Nat
deriving Repr, DecidableEq

/-- Loop of `lock_allocations_for_batch` (rm_allocation.py:455-536) over the
ordered reserved allocations.  Once the locked total reaches the need the
loop breaks and the remaining rows pass through untouched.  Otherwise: a row
strictly larger than the remaining need is split — a fresh `locked` child of
exactly the remaining need is created, the parent keeps the difference (or
is deleted at zero), and the stock balance of the material is decremented by
the locked portion; a row not larger than the remaining need is locked
whole via `lock_allocation`, with no stock arithmetic. -/
def lockBatchLoop (need : ℚ) (moId batchId user now : Nat) :
    List Allocation → LockBatchAcc → LockBatchAcc
  | [], acc => acc
  | a :: rest, acc =>
      if need ≤ acc.total_locked then
        { acc with out := acc.out ++ a :: rest }
      else
        let remaining := need - acc.total_locked
        if remaining < a.allocated_quantity_kg ∧ 0 < remaining then
          let child : Allocation :=
            { id := acc.fresh, mo := moId, raw_material := a.raw_material,
              allocated_quantity_kg := remaining, status := "locked",
              can_be_swapped := false, allocated_at := now,
              locked_at := some now, locked_by := some user,
              swapped_to_mo := none }
          let remaining_qty := a.allocated_quantity_kg - remaining
          let parentAfter : Option Allocation :=
            if 0 < remaining_qty then
              some { a with allocated_quantity_kg := remaining_qty }
            else
              none
          let newRows :=
            match parentAfter with
            | some p => [p, child]
            | none => [child]
          lockBatchLoop need moId batchId user now rest
            { out := acc.out ++ newRows,
              stock := decStockFirst acc.stock a.raw_material remaining,
              history := acc.history ++
                [{ allocation := child.id, action := "locked", from_mo := none,
                   to_mo := some moId, quantity_kg := remaining,
                   performed_by := user }],
              locked_count := acc.locked_count + 1,
              total_locked := acc.total_locked + remaining,
              splits := acc.splits ++ [⟨a, child, parentAfter, remaining⟩],
              fresh := acc.fresh + 1 }
        else
          let r := lock_allocation a user now
          if r.1 then
            lockBatchLoop need moId batchId user now rest
              { acc with
                out := acc.out ++ [r.2]
                history := acc.history ++
                  [{ allocation := a.id, action := "locked", from_mo := none,
                     to_mo := some moId,
                     quantity_kg := a.allocated_quantity_kg,
                     performed_by := user }]
                locked_count := acc.locked_count + 1
                total_locked := acc.total_locked + a.allocated_quantity_kg }
          else
            lockBatchLoop need moId batchId user now rest
              { acc with out := acc.out ++ [r.2] }

/-- Result of `lock_allocations_for_batch`. -/
structure LockBatchOutcome where
  allocs : List Allocation
  stock : List (Nat × ℚ)
  history : List HistoryRow
  success : Bool
  locked_count : Nat
  locked_quantity_kg : ℚ
  required_quantity_kg : ℚ
  splits : List SplitRec
deriving Repr, DecidableEq

/-- Embedding of `RMAllocationService.lock_allocations_for_batch`
(rm_allocation.py:346-546): compute the batch need, fail without changes on
a non-positive need or an empty reserved set, otherwise run the locking
loop over the reserved allocations ordered by `allocated_at`. -/
def lockAllocationsForBatch (mo : MORec) (product : ProductRec)
    (batch : BatchRec) (reserved : List Allocation) (stock : List (Nat × ℚ))
    (user now fresh : Nat) : LockBatchOutcome :=
  let need := batchRmKgService mo product batch.planned_quantity
  if need ≤ 0 then
    { allocs := reserved, stock := stock, history := [], success := false,
      locked_count := 0, locked_quantity_kg := 0, required_quantity_kg := need,
      splits := [] }
  else if reserved.isEmpty then
    { allocs := reserved, stock := stock, history := [], success := false,
      locked_count := 0, locked_quantity_kg := 0, required_quantity_kg := need,
      splits := [] }
  else
    let ordered := sortWith allocatedAtLE reserved
    let fin := lockBatchLoop need mo.id batch.id user now ordered
      { out := [], stock := stock, history := [], locked_count := 0,
        total_locked := 0, splits := [], fresh := fresh }
    { allocs := fin.out, stock := fin.stock, history := fin.history,
      success := true, locked_count := fin.locked_count,
      locked_quantity_kg := fin.total_locked, required_quantity_kg := need,
      splits := fin.splits }

theorem lock_allocation_qty (a : Allocation) (user now : Nat) :
    (lock_allocation a user now).2.allocated_quantity_kg =
      a.allocated_quantity_kg := by
  by_cases h : a.status = "reserved" <;> simp [lock_allocation, h]

/-- Invariant of the batch-lock loop: the locked total never exceeds the
need once it starts below it. -/
theorem lockBatchLoop_total_le (need : ℚ) (moId batchId user now : Nat)
    (l : List Allocation) (acc : LockBatchAcc)
    (h : acc.total_locked ≤ need) :
    (lockBatchLoop need moId batchId user now l acc).total_locked ≤ need := by
  induction l generalizing acc with
  | nil => simpa [lockBatchLoop] using h
  | cons a rest ih =>
      simp only [lockBatchLoop]
      by_cases hbr : need ≤ acc.total_locked
      · simpa [hbr] using h
      · rw [if_neg hbr]
        have hrem : 0 < need - acc.total_locked := by
          have := lt_of_not_le hbr
          linarith
        by_cases hsp : need - acc.total_locked < a.allocated_quantity_kg ∧
            0 < need - acc.total_locked
        · rw [if_pos hsp]
          apply ih
          simp only []
          linarith
        · rw [if_neg hsp]
          by_cases hok : (lock_allocation a user now).1 = true
          · rw [if_pos hok]
            apply ih
            simp only []
            have hqle : a.allocated_quantity_kg ≤ need - acc.total_locked := by
              rcases not_and_or.mp hsp with h1 | h2
              · exact le_of_not_lt h1
              · exact absurd hrem h2
            linarith
          · rw [if_neg hok]
            exact ih _ h

/-- Invariant of the batch-lock loop: allocated quantity is conserved — the
rows written out (split children included, deleted parents excluded) carry
exactly the quantity of the rows consumed. -/
theorem lockBatchLoop_sumQty (need : ℚ) (moId batchId user now : Nat)
    (l : List Allocation) (acc : LockBatchAcc) :
    sumQty (lockBatchLoop need moId batchId user now l acc).out =
      sumQty acc.out + sumQty l := by
  induction l generalizing acc with
  | nil => simp [lockBatchLoop, sumQty_nil]
  | cons a rest ih =>
      simp only [lockBatchLoop]
      by_cases hbr : need ≤ acc.total_locked
      · rw [if_pos hbr]
        simp [sumQty_append, sumQty_cons]
      · rw [if_neg hbr]
        by_cases hsp : need - acc.total_locked < a.allocated_quantity_kg ∧
            0 < need - acc.total_locked
        · rw [if_pos hsp]
          have hpq : (0:ℚ) < a.allocated_quantity_kg - (need - acc.total_locked) := by
            have := hsp.1
            linarith
          rw [if_pos hpq]
          rw [ih]
          simp only [sumQty_append, sumQty_cons, sumQty_nil]
          ring
        · rw [if_neg hsp]
          by_cases hok : (lock_allocation a user now).1 = true
          · rw [if_pos hok]
            rw [ih]
            simp only [sumQty_append, sumQty_cons, sumQty_nil,
              lock_allocation_qty]
            ring
          · rw [if_neg hok]
            rw [ih]
            simp only [sumQty_append, sumQty_cons, sumQty_nil,
              lock_allocation_qty]
            ring

/-- What the claim asserts of one split: the child is a fresh `locked` row of
exactly the remaining need, strictly smaller than the parent's quantity, the
parent survives with the difference, and child + parent reconstitute the
original quantity. -/
def SplitOk (sp : SplitRec) : Prop :=
  sp.child.status = "locked" ∧
  sp.child.allocated_quantity_kg = sp.remainingNeeded ∧
  sp.remainingNeeded < sp.original.allocated_quantity_kg ∧
  0 < sp.remainingNeeded ∧
  sp.parentAfter = some { sp.original with
    allocated_quantity_kg :=
      sp.original.allocated_quantity_kg - sp.remainingNeeded } ∧
  sp.child.allocated_quantity_kg +
      (sp.original.allocated_quantity_kg - sp.remainingNeeded) =
    sp.original.allocated_quantity_kg

/-- Invariant of the batch-lock loop: every split record either predates the
loop or is a correct split of a row taken from the worked list. -/
theorem lockBatchLoop_splits (need : ℚ) (moId batchId user now : Nat)
    (l : List Allocation) (acc : LockBatchAcc) :
    ∀ sp ∈ (lockBatchLoop need moId batchId user now l acc).splits,
      sp ∈ acc.splits ∨ (SplitOk sp ∧ sp.original ∈ l) := by
  induction l generalizing acc with
  | nil =>
      intro sp hsp
      simp only [lockBatchLoop] at hsp
      exact Or.inl hsp
  | cons a rest ih =>
      intro sp hsp
      simp only [lockBatchLoop] at hsp
      by_cases hbr : need ≤ acc.total_locked
      · rw [if_pos hbr] at hsp
        exact Or.inl hsp
      · rw [if_neg hbr] at hsp
        by_cases hsp2 : need - acc.total_locked < a.allocated_quantity_kg ∧
            0 < need - acc.total_locked
        · rw [if_pos hsp2] at hsp
          have hpq : (0:ℚ) < a.allocated_quantity_kg - (need - acc.total_locked) := by
            have := hsp2.1
            linarith
          rw [if_pos hpq] at hsp
          rcases ih _ sp hsp with hin | hnew
          · rcases List.mem_append.mp hin with hold | hthis
            · exact Or.inl hold
            · have hsp_eq : sp = ⟨a,
                  { id := acc.fresh, mo := moId, raw_material := a.raw_material,
                    allocated_quantity_kg := need - acc.total_locked,
                    status := "locked", can_be_swapped := false,
                    allocated_at := now, locked_at := some now,
                    locked_by := some user, swapped_to_mo := none },
                  some { a with allocated_quantity_kg :=
                    a.allocated_quantity_kg - (need - acc.total_locked) },
                  need - acc.total_locked⟩ := by
                simpa using hthis
              subst hsp_eq
              exact Or.inr ⟨⟨rfl, rfl, hsp2.1, hsp2.2, rfl, by ring⟩,
                List.mem_cons_self a rest⟩
          · exact Or.inr ⟨hnew.1, List.mem_cons_of_mem a hnew.2⟩
        · rw [if_neg hsp2] at hsp
          by_cases hok : (lock_allocation a user now).1 = true
          · rw [if_pos hok] at hsp
            rcases ih _ sp hsp with hin | hnew
            · exact Or.inl hin
            · exact Or.inr ⟨hnew.1, List.mem_cons_of_mem a hnew.2⟩
          · rw [if_neg hok] at hsp
            rcases ih _ sp hsp with hin | hnew
            · exact Or.inl hin
            · exact Or.inr ⟨hnew.1, List.mem_cons_of_mem a hnew.2⟩

/-- Sum of the remaining-need quantities over a split log. -/
def sumNeeded (l : List SplitRec) : ℚ :=
  l.foldr (fun s acc => s.remainingNeeded + acc) 0

theorem sumNeeded_append (l1 l2 : List SplitRec) :
    sumNeeded (l1 ++ l2) = sumNeeded l1 + sumNeeded l2 := by
  induction l1 with
  | nil => simp [sumNeeded]
  | cons s t ih =>
      simp only [List.cons_append, sumNeeded, List.foldr_cons] at *
      rw [ih]
      ring

/-- Invariant of the batch-lock loop: the split log only grows, and the
stock table changes exactly by folding the stock decrement of each new
split over it — in particular a run without splits never touches stock. -/
theorem lockBatchLoop_stock (need : ℚ) (moId batchId user now : Nat)
    (l : List Allocation) (acc : LockBatchAcc) :
    ∃ ext : List SplitRec,
      (lockBatchLoop need moId batchId user now l acc).splits =
        acc.splits ++ ext ∧
      (lockBatchLoop need moId batchId user now l acc).stock =
        ext.foldl
          (fun st sp => decStockFirst st sp.original.raw_material sp.remainingNeeded)
          acc.stock := by
  induction l generalizing acc with
  | nil => exact ⟨[], by simp [lockBatchLoop], by simp [lockBatchLoop]⟩
  | cons a rest ih =>
      simp only [lockBatchLoop]
      by_cases hbr : need ≤ acc.total_locked
      · rw [if_pos hbr]
        exact ⟨[], by simp, by simp⟩
      · rw [if_neg hbr]
        by_cases hsp2 : need - acc.total_locked < a.allocated_quantity_kg ∧
            0 < need - acc.total_locked
        · rw [if_pos hsp2]
          have hpq : (0:ℚ) < a.allocated_quantity_kg - (need - acc.total_locked) := by
            have := hsp2.1
            linarith
          rw [if_pos hpq]
          obtain ⟨ext, hspl, hstk⟩ := ih
            { out := acc.out ++
                [{ a with allocated_quantity_kg :=
                    a.allocated_quantity_kg - (need - acc.total_locked) },
                 { id := acc.fresh, mo := moId, raw_material := a.raw_material,
                   allocated_quantity_kg := need - acc.total_locked,
                   status := "locked", can_be_swapped := false,
                   allocated_at := now, locked_at := some now,
                   locked_by := some user, swapped_to_mo := none }],
              stock := decStockFirst acc.stock a.raw_material
                (need - acc.total_locked),
              history := acc.history ++
                [{ allocation := acc.fresh, action := "locked", from_mo := none,
                   to_mo := some moId,
                   quantity_kg := need - acc.total_locked,
                   performed_by := user }],
              locked_count := acc.locked_count + 1,
              total_locked := acc.total_locked + (need - acc.total_locked),
              splits := acc.splits ++
                [⟨a,
                  { id := acc.fresh, mo := moId, raw_material := a.raw_material,
                    allocated_quantity_kg := need - acc.total_locked,
                    status := "locked", can_be_swapped := false,
                    allocated_at := now, locked_at := some now,
                    locked_by := some user, swapped_to_mo := none },
                  some { a with allocated_quantity_kg :=
                    a.allocated_quantity_kg - (need - acc.total_locked) },
                  need - acc.total_locked⟩],
              fresh := acc.fresh + 1 }
          refine ⟨⟨a,
            { id := acc.fresh, mo := moId, raw_material := a.raw_material,
              allocated_quantity_kg := need - acc.total_locked,
              status := "locked", can_be_swapped := false,
              allocated_at := now, locked_at := some now,
              locked_by := some user, swapped_to_mo := none },
            some { a with allocated_quantity_kg :=
              a.allocated_quantity_kg - (need - acc.total_locked) },
            need - acc.total_locked⟩ :: ext, ?_, ?_⟩
          · exact hspl.trans (by simp)
          · rw [List.foldl_cons]
            exact hstk
        · rw [if_neg hsp2]
          by_cases hok : (lock_allocation a user now).1 = true
          · rw [if_pos hok]
            obtain ⟨ext, hspl, hstk⟩ := ih
              { acc with
                out := acc.out ++ [(lock_allocation a user now).2]
                history := acc.history ++
                  [{ allocation := a.id, action := "locked", from_mo := none,
                     to_mo := some moId,
                     quantity_kg := a.allocated_quantity_kg,
                     performed_by := user }]
                locked_count := acc.locked_count + 1
                total_locked := acc.total_locked + a.allocated_quantity_kg }
            exact ⟨ext, hspl, hstk⟩
          · rw [if_neg hok]
            obtain ⟨ext, hspl, hstk⟩ := ih
              { acc with out := acc.out ++ [(lock_allocation a user now).2] }
            exact ⟨ext, hspl, hstk⟩

/-- Folding the split decrements over a single-row stock table for the
splits' common material subtracts exactly the summed split needs. -/
theorem foldl_decStockFirst_single (splits : List SplitRec) (m : Nat) (q : ℚ)
    (hm : ∀ sp ∈ splits, sp.original.raw_material = m) :
    splits.foldl
        (fun st sp => decStockFirst st sp.original.raw_material sp.remainingNeeded)
        [(m, q)] =
      [(m, q - sumNeeded splits)] := by
  induction splits generalizing q with
  | nil => simp [sumNeeded]
  | cons sp rest ih =>
      have hsp : sp.original.raw_material = m := hm sp (List.mem_cons_self sp rest)
      rw [List.foldl_cons]
      have hdec : decStockFirst [(m, q)] sp.original.raw_material
          sp.remainingNeeded = [(m, q - sp.remainingNeeded)] := by
        rw [hsp]
        simp [decStockFirst]
      rw [hdec,
        ih (q - sp.remainingNeeded) (fun x hx => hm x (List.mem_cons_of_mem sp hx))]
      simp only [sumNeeded, List.foldr_cons]
      have harith : q - sp.remainingNeeded -
          List.foldr (fun s acc => s.remainingNeeded + acc) 0 rest =
          q - (sp.remainingNeeded +
            List.foldr (fun s acc => s.remainingNeeded + acc) 0 rest) := by
        ring
      rw [harith]

/-- The three early-return/main-branch facts of `lockAllocationsForBatch`
needed below, packaged once. -/
theorem lockAllocationsForBatch_eq (mo : MORec) (product : ProductRec)
    (batch : BatchRec) (reserved : List Allocation) (stock : List (Nat × ℚ))
    (user now fresh : Nat)
    (hneed : 0 < batchRmKgService mo product batch.planned_quantity)
    (hne : reserved.isEmpty = false) :
    lockAllocationsForBatch mo product batch reserved stock user now fresh =
      (let need := batchRmKgService mo product batch.planned_quantity
       let fin := lockBatchLoop need mo.id batch.id user now
         (sortWith allocatedAtLE reserved)
         { out := [], stock := stock, history := [], locked_count := 0,
           total_locked := 0, splits := [], fresh := fresh }
       { allocs := fin.out, stock := fin.stock, history := fin.history,
         success := true, locked_count := fin.locked_count,
         locked_quantity_kg := fin.total_locked,
         required_quantity_kg := need, splits := fin.splits }) := by
  unfold lockAllocationsForBatch
  rw [if_neg (not_le.mpr hneed), if_neg (by simp [hne])]

/-- C4: starting a batch locks at most the batch's computed RM need, every
split produces a fresh locked child of exactly the remaining need with the
parent keeping the difference (child + parent = original), and the total
allocated quantity over the rewritten rows is conserved. -/
theorem batch_lock_split_conservation (mo : MORec) (product : ProductRec)
    (batch : BatchRec) (reserved : List Allocation) (stock : List (Nat × ℚ))
    (user now fresh : Nat)
    (hneed : 0 < batchRmKgService mo product batch.planned_quantity) :
    (lockAllocationsForBatch mo product batch reserved stock user now
        fresh).locked_quantity_kg ≤
      batchRmKgService mo product batch.planned_quantity ∧
    sumQty (lockAllocationsForBatch mo product batch reserved stock user now
        fresh).allocs = sumQty reserved ∧
    ∀ sp ∈ (lockAllocationsForBatch mo product batch reserved stock user now
        fresh).splits, SplitOk sp := by
  by_cases hne : reserved.isEmpty
  · unfold lockAllocationsForBatch
    rw [if_neg (not_le.mpr hneed), if_pos hne]
    exact ⟨le_of_lt hneed, rfl, by intro sp hsp; simp at hsp⟩
  · rw [lockAllocationsForBatch_eq mo product batch reserved stock user now
      fresh hneed (by simpa using hne)]
    refine ⟨?_, ?_, ?_⟩
    · exact lockBatchLoop_total_le _ _ _ _ _ _ _ (le_of_lt hneed)
    · rw [lockBatchLoop_sumQty]
      simp [sumQty_sortWith, sumQty_nil]
    · intro sp hsp
      rcases lockBatchLoop_splits _ _ _ _ _ _ _ sp hsp with hin | hok
      · simp at hin
      · exact hok.1

/-- Witness for C4 at the split scenario of a coil batch: MO with default
2 % tolerance, batch of 5000 g (need 5.1 kg), one 10 kg reserved
allocation. -/
theorem batch_lock_split_conservation_witness :
    (0 : ℚ) < batchRmKgService
      { id := 1, status := "in_progress", priority := "high", quantity := 1000,
        tolerance_percentage := none, rm_required_kg := 51/10 }
      { material_type := "coil", grams_per_product := 5, pcs_per_strip := 0,
        strips_calc := none }
      5000 ∧
    (lockAllocationsForBatch
      { id := 1, status := "in_progress", priority := "high", quantity := 1000,
        tolerance_percentage := none, rm_required_kg := 51/10 }
      { material_type := "coil", grams_per_product := 5, pcs_per_strip := 0,
        strips_calc := none }
      { id := 11, status := "created", planned_quantity := 5000, notes := [] }
      [{ id := 21, mo := 1, raw_material := 7, allocated_quantity_kg := 10,
         status := "reserved", can_be_swapped := true, allocated_at := 3 }]
      [(7, 20)] 5 100 50).locked_quantity_kg ≤
      batchRmKgService
        { id := 1, status := "in_progress", priority := "high", quantity := 1000,
          tolerance_percentage := none, rm_required_kg := 51/10 }
        { material_type := "coil", grams_per_product := 5, pcs_per_strip := 0,
          strips_calc := none }
        5000 := by
  have hneed : (0 : ℚ) < batchRmKgService
      { id := 1, status := "in_progress", priority := "high", quantity := 1000,
        tolerance_percentage := none, rm_required_kg := 51/10 }
      { material_type := "coil", grams_per_product := 5, pcs_per_strip := 0,
        strips_calc := none }
      5000 := by
    norm_num [batchRmKgService, toleranceOf]
  exact ⟨hneed,
    (batch_lock_split_conservation
      { id := 1, status := "in_progress", priority := "high", quantity := 1000,
        tolerance_percentage := none, rm_required_kg := 51/10 }
      { material_type := "coil", grams_per_product := 5, pcs_per_strip := 0,
        strips_calc := none }
      { id := 11, status := "created", planned_quantity := 5000, notes := [] }
      [{ id := 21, mo := 1, raw_material := 7, allocated_quantity_kg := 10,
         status := "reserved", can_be_swapped := true, allocated_at := 3 }]
      [(7, 20)] 5 100 50 hneed).1⟩

theorem lockMoLoop_out (moId user now : Nat) (l : List Allocation) :
    (lockMoLoop moId user now l).1 =
      l.map (fun a => (lock_allocation a user now).2) := by
  induction l with
  | nil => rfl
  | cons a rest ih =>
      simp only [lockMoLoop, List.map_cons]
      by_cases hok : (lock_allocation a user now).1 = true
      · rw [if_pos hok]
        simp [ih]
      · rw [if_neg hok]
        simp [ih]

/-- C5 (amended): `lock_allocations_for_mo` rewrites each reserved row of
the MO to a locked row with `locked_at` and the acting user recorded (the
function performs no stock arithmetic — it neither reads nor writes any
stock row); in `lock_allocations_for_batch`, a run without splits leaves
the stock table untouched, while in general the material's single stock
row is decremented by exactly the total quantity locked through splits. -/
theorem lock_operations_and_stock (moId user now : Nat)
    (reserved : List Allocation) (mo : MORec) (product : ProductRec)
    (batch : BatchRec) (reservedB : List Allocation) (stock : List (Nat × ℚ))
    (fresh : Nat) :
    (∀ a ∈ reserved, a.status = "reserved" →
      ({ a with
         status := "locked"
         can_be_swapped := false
         locked_at := some now
         locked_by := some user } : Allocation) ∈
        (lockAllocationsForMo moId reserved user now).allocs) ∧
    ((lockAllocationsForBatch mo product batch reservedB stock user now
        fresh).splits = [] →
      (lockAllocationsForBatch mo product batch reservedB stock user now
        fresh).stock = stock) ∧
    (∀ m : Nat, ∀ q : ℚ, stock = [(m, q)] →
      (∀ a ∈ reservedB, a.raw_material = m) →
      (lockAllocationsForBatch mo product batch reservedB stock user now
          fresh).stock =
        [(m, q - sumNeeded (lockAllocationsForBatch mo product batch reservedB
          stock user now fresh).splits)]) := by
  refine ⟨?_, ?_, ?_⟩
  · intro a ha hres
    unfold lockAllocationsForMo
    have hne : reserved.isEmpty = false := by
      cases reserved with
      | nil => cases ha
      | cons x xs => rfl
    rw [if_neg (by simp [hne])]
    simp only [lockMoLoop_out]
    refine List.mem_map.mpr ⟨a, ha, ?_⟩
    unfold lock_allocation
    rw [if_pos hres]
  · intro hnosplit
    by_cases hneed : batchRmKgService mo product batch.planned_quantity ≤ 0
    · unfold lockAllocationsForBatch
      rw [if_pos hneed]
    · by_cases hemp : reservedB.isEmpty
      · unfold lockAllocationsForBatch
        rw [if_neg hneed, if_pos hemp]
      · rw [lockAllocationsForBatch_eq mo product batch reservedB stock user
          now fresh (lt_of_not_le hneed) (by simpa using hemp)] at hnosplit ⊢
        obtain ⟨ext, hspl, hstk⟩ := lockBatchLoop_stock
          (batchRmKgService mo product batch.planned_quantity) mo.id batch.id
          user now (sortWith allocatedAtLE reservedB)
          { out := [], stock := stock, history := [], locked_count := 0,
            total_locked := 0, splits := [], fresh := fresh }
        simp only [] at hspl hstk hnosplit ⊢
        rw [hstk]
        rw [hspl] at hnosplit
        simp only [List.nil_append] at hnosplit
        rw [hnosplit]
        rfl
  · intro m q hstock hmat
    by_cases hneed : batchRmKgService mo product batch.planned_quantity ≤ 0
    · unfold lockAllocationsForBatch
      rw [if_pos hneed]
      subst hstock
      simp [sumNeeded]
    · by_cases hemp : reservedB.isEmpty
      · unfold lockAllocationsForBatch
        rw [if_neg hneed, if_pos hemp]
        subst hstock
        simp [sumNeeded]
      · rw [lockAllocationsForBatch_eq mo product batch reservedB stock user
          now fresh (lt_of_not_le hneed) (by simpa using hemp)]
        obtain ⟨ext, hspl, hstk⟩ := lockBatchLoop_stock
          (batchRmKgService mo product batch.planned_quantity) mo.id batch.id
          user now (sortWith allocatedAtLE reservedB)
          { out := [], stock := stock, history := [], locked_count := 0,
            total_locked := 0, splits := [], fresh := fresh }
        simp only [List.nil_append] at hspl
        simp only []
        rw [hstk, hspl, hstock]
        apply foldl_decStockFirst_single
        intro sp hsp
        have := lockBatchLoop_splits
          (batchRmKgService mo product batch.planned_quantity) mo.id batch.id
          user now (sortWith allocatedAtLE reservedB)
          { out := [], stock := stock, history := [], locked_count := 0,
            total_locked := 0, splits := [], fresh := fresh } sp
        rw [hspl] at this
        rcases this hsp with hin | ⟨_, hmem⟩
        · cases hin
        · exact hmat sp.original ((mem_sortWith allocatedAtLE sp.original
            reservedB).mp hmem)

/-- Witness for C5 at concrete inputs: one reserved 10 kg row flipped whole
by `lock_allocations_for_mo`, and the single-row stock equation of
`lock_allocations_for_batch` at the split scenario of the C4 witness. -/
theorem lock_operations_and_stock_witness :
    ({ id := 21, mo := 1, raw_material := 7, allocated_quantity_kg := 10,
       status := "locked", can_be_swapped := false, allocated_at := 3,
       locked_at := some 100, locked_by := some 5 } : Allocation) ∈
      (lockAllocationsForMo 1
        [{ id := 21, mo := 1, raw_material := 7, allocated_quantity_kg := 10,
           status := "reserved", can_be_swapped := true, allocated_at := 3 }]
        5 100).allocs ∧
    (lockAllocationsForBatch
      { id := 1, status := "in_progress", priority := "high", quantity := 1000,
        tolerance_percentage := none, rm_required_kg := 51/10 }
      { material_type := "coil", grams_per_product := 5, pcs_per_strip := 0,
        strips_calc := none }
      { id := 11, status := "created", planned_quantity := 5000, notes := [] }
      [{ id := 21, mo := 1, raw_material := 7, allocated_quantity_kg := 10,
         status := "reserved", can_be_swapped := true, allocated_at := 3 }]
      [(7, 20)] 5 100 50).stock =
      [(7, 20 - sumNeeded (lockAllocationsForBatch
        { id := 1, status := "in_progress", priority := "high", quantity := 1000,
          tolerance_percentage := none, rm_required_kg := 51/10 }
        { material_type := "coil", grams_per_product := 5, pcs_per_strip := 0,
          strips_calc := none }
        { id := 11, status := "created", planned_quantity := 5000, notes := [] }
        [{ id := 21, mo := 1, raw_material := 7, allocated_quantity_kg := 10,
           status := "reserved", can_be_swapped := true, allocated_at := 3 }]
        [(7, 20)] 5 100 50).splits)] := by
  have h := lock_operations_and_stock 1 5 100
    [{ id := 21, mo := 1, raw_material := 7, allocated_quantity_kg := 10,
       status := "reserved", can_be_swapped := true, allocated_at := 3 }]
    { id := 1, status := "in_progress", priority := "high", quantity := 1000,
      tolerance_percentage := none, rm_required_kg := 51/10 }
    { material_type := "coil", grams_per_product := 5, pcs_per_strip := 0,
      strips_calc := none }
    { id := 11, status := "created", planned_quantity := 5000, notes := [] }
    [{ id := 21, mo := 1, raw_material := 7, allocated_quantity_kg := 10,
       status := "reserved", can_be_swapped := true, allocated_at := 3 }]
    [(7, 20)] 50
  refine ⟨?_, ?_⟩
  · exact h.1 _ (List.mem_singleton_self _) rfl
  · exact h.2.2 7 20 rfl (by intro a ha; simp at ha; rw [ha])

/-- Counterexample for C5 as stated: locking part of a reserved allocation
for a starting batch (the split path) does change a stock-balance row — the
material's balance drops from 20 kg to 14.9 kg, so lock operations are not
stock-neutral. -/
theorem lock_batch_stock_counterexample :
    (lockAllocationsForBatch
      { id := 1, status := "in_progress", priority := "high", quantity := 1000,
        tolerance_percentage := none, rm_required_kg := 51/10 }
      { material_type := "coil", grams_per_product := 5, pcs_per_strip := 0,
        strips_calc := none }
      { id := 11, status := "created", planned_quantity := 5000, notes := [] }
      [{ id := 21, mo := 1, raw_material := 7, allocated_quantity_kg := 10,
         status := "reserved", can_be_swapped := true, allocated_at := 3 }]
      [(7, 20)] 5 100 50).stock = [(7, 149/10)] ∧
    ((149 : ℚ)/10 ≠ 20) := by
  constructor
  · norm_num [lockAllocationsForBatch, batchRmKgService, toleranceOf, sortWith,
      insertSortedBy, allocatedAtLE, lockBatchLoop, decStockFirst,
      lock_allocation]
  · norm_num

/-! ## RM allocation service: swapping (C8, C3)

`RMAllocationService.find_swappable_allocations` (rm_allocation.py:135-177)
and `RMAllocationService.auto_swap_allocations` (rm_allocation.py:179-246). -/

/-- Lookup of an allocation's owning MO row by id. -/
def lookupMo (mos : List MORec) (i : Nat) : Option MORec :=
  mos.find? (fun m => m.id = i)

/-- The `priority_order` dict of `find_swappable_allocations`
(rm_allocation.py:157) in insertion order. -/
def priorityOrder : List (String × Nat) :=
  [("low", 1), ("medium", 2), ("high", 3), ("urgent", 4)]

/-- `priority_order.get(p, 0)`. -/
def priorityValue (p : String) : Nat :=
  match priorityOrder.find? (fun kv => kv.1 = p) with
  | some kv => kv.2
  | none => 0

/-- `lower_priority_statuses` (rm_allocation.py:161-164): the priority keys
whose numeric value is strictly below the target's. -/
def lowerPriorityStatuses (target : String) : List String :=
  (priorityOrder.filter (fun kv => kv.2 < priorityValue target)).map
    (fun kv => kv.1)

/-- The queryset filter of `find_swappable_allocations`
(rm_allocation.py:166-171): same material, `reserved`, swappable, owning MO
`on_hold` with priority in the strictly-lower set. -/
def swappablePred (targetMo : MORec) (mat : Nat) (mos : List MORec)
    (a : Allocation) : Bool :=
  a.raw_material == mat && a.status == "reserved" && a.can_be_swapped &&
    (match lookupMo mos a.mo with
     | some m =>
         m.status == "on_hold" &&
           (lowerPriorityStatuses targetMo.priority).contains m.priority
     | none => false)

/-- The `order_by('mo__priority', 'allocated_at')` comparison
(rm_allocation.py:172-175): the stored priority is a character column, so
the database orders it as a string (lexicographically), then by
`allocated_at` ascending. -/
def swapCandidateLE (mos : List MORec) (a b : Allocation) : Bool :=
  let pa := match lookupMo mos a.mo with | some m => m.priority | none => ""
  let pb := match lookupMo mos b.mo with | some m => m.priority | none => ""
  decide (pa < pb) || (pa == pb && decide (a.allocated_at ≤ b.allocated_at))

/-- Embedding of `RMAllocationService.find_swappable_allocations`
(rm_allocation.py:135-177).  `targetMaterial` is
`target_mo.product_code.material` (`none` embeds the missing-product /
missing-material early return of an empty queryset). -/
def findSwappableAllocations (targetMo : MORec) (targetMaterial : Option Nat)
    (mos : List MORec) (allocs : List Allocation) : List Allocation :=
  match targetMaterial with
  | none => []
  | some mat =>
      sortWith (swapCandidateLE mos)
        (allocs.filter (swappablePred targetMo mat mos))

/-- Modelled from the spec: `RawMaterialAllocation.swap_to_mo` lives in
`manufacturing/models/allocations.py`, which is not among the provided
sources.  Spec §4.3 Swap: reassign the allocation to the target MO by
setting status `swapped` on the original record (with the pointer to the
target MO) and creating a mirror `reserved` record on the target; swapping
applies only to `reserved`, swappable allocations.  History rows are
written by the calling service (embedded below from the source). -/
def swap_to_mo (a : Allocation) (target user now freshId : Nat) :
    Bool × Allocation × Option Allocation :=
  if a.status = "reserved" ∧ a.can_be_swapped then
    (true,
     { a with
       status := "swapped"
       can_be_swapped := false
       swapped_to_mo := some target },
     some { id := freshId, mo := target, raw_material := a.raw_material,
            allocated_quantity_kg := a.allocated_quantity_kg,
            status := "reserved", can_be_swapped := true,
            allocated_at := now })
  else
    (false, a, none)

/-- Accumulator of the auto-swap loop. -/
structure SwapAcc where
  table : List Allocation
  history : List HistoryRow
  total : ℚ
  count : Nat
  fresh : Nat
deriving Repr, DecidableEq

/-- Loop of `auto_swap_allocations` (rm_allocation.py:206-229): take
candidates until the cumulative swapped quantity reaches the requirement
(then break), swapping each via `swap_to_mo` and appending one `swapped`
history row per success. -/
def autoSwapLoop (targetMoId user now : Nat) (required : ℚ) :
    List Allocation → SwapAcc → SwapAcc
  | [], acc => acc
  | c :: rest, acc =>
      if required ≤ acc.total then acc
      else
        let r := swap_to_mo c targetMoId user now acc.fresh
        if r.1 then
          autoSwapLoop targetMoId user now required rest
            { table :=
                (acc.table.map (fun x => if x.id = c.id then r.2.1 else x)) ++
                  (match r.2.2 with
                   | some mir => [mir]
                   | none => []),
              history := acc.history ++
                [{ allocation := c.id, action := "swapped",
                   from_mo := some c.mo, to_mo := some targetMoId,
                   quantity_kg := c.allocated_quantity_kg,
                   performed_by := user }],
              total := acc.total + c.allocated_quantity_kg,
              count := acc.count + 1,
              fresh := acc.fresh + 1 }
        else
          autoSwapLoop targetMoId user now required rest acc

/-- Result of `auto_swap_allocations`. -/
structure SwapOutcome where
  success : Bool
  swapped_count : Nat
  total_quantity_kg : ℚ
  allocs : List Allocation
  history : List HistoryRow
deriving Repr, DecidableEq

/-- Embedding of `RMAllocationService.auto_swap_allocations`
(rm_allocation.py:179-246): enumerate the swappable candidates, fail with
no side effects when there are none, otherwise run the swap loop and
report success exactly when the cumulative swapped quantity reached
`rm_required_kg`.  The function returns normally in both cases, so the
swaps performed by a failing run remain in the returned state (the
enclosing `transaction.atomic()` only rolls back on an exception, and none
is raised). -/
def autoSwapAllocations (targetMo : MORec) (targetMaterial : Option Nat)
    (mos : List MORec) (allocs : List Allocation) (user now fresh : Nat) :
    SwapOutcome :=
  let cands := findSwappableAllocations targetMo targetMaterial mos allocs
  if cands.isEmpty then
    { success := false, swapped_count := 0, total_quantity_kg := 0,
      allocs := allocs, history := [] }
  else
    let required := targetMo.rm_required_kg
    let fin := autoSwapLoop targetMo.id user now required cands
      ⟨allocs, [], 0, 0, fresh⟩
    if required ≤ fin.total then
      { success := true, swapped_count := fin.count,
        total_quantity_kg := fin.total, allocs := fin.table,
        history := fin.history }
    else
      { success := false, swapped_count := fin.count,
        total_quantity_kg := fin.total, allocs := fin.table,
        history := fin.history }

/-- C8: evaluation at the failing input.  Target MO 3 has priority
`urgent`; allocation 1 belongs to MO 1 (`low`, on hold, allocated later),
allocation 2 to MO 2 (`high`, on hold, allocated earlier).  Both pass the
filter, but the candidates come back ordered `high` before `low` — the
column is ordered as a string (`"high" < "low"` lexicographically) — while
the in-code comment (`# Lowest priority first`) and the claim require the
`low`-priority allocation first. -/
theorem swap_candidate_order_failing_input :
    ((findSwappableAllocations
        { id := 3, status := "on_hold", priority := "urgent", quantity := 100,
          tolerance_percentage := none, rm_required_kg := 30 }
        (some 7)
        [{ id := 1, status := "on_hold", priority := "low", quantity := 10,
           tolerance_percentage := none, rm_required_kg := 10 },
         { id := 2, status := "on_hold", priority := "high", quantity := 10,
           tolerance_percentage := none, rm_required_kg := 10 }]
        [{ id := 1, mo := 1, raw_material := 7, allocated_quantity_kg := 10,
           status := "reserved", can_be_swapped := true, allocated_at := 2 },
         { id := 2, mo := 2, raw_material := 7, allocated_quantity_kg := 10,
           status := "reserved", can_be_swapped := true, allocated_at := 1 }]).map
      (fun a => a.mo)) = [2, 1] ∧
    priorityValue "low" < priorityValue "high" := by
  constructor
  · simp [findSwappableAllocations, swappablePred, lookupMo,
      lowerPriorityStatuses, priorityOrder, priorityValue, sortWith,
      insertSortedBy, swapCandidateLE]
    decide
  · decide

/-- An allocation row with the given id exists in the table. -/
def IdIn (i : Nat) (table : List Allocation) : Prop :=
  ∃ a ∈ table, a.id = i

/-- A row with the given id is recorded as swapped to the target MO. -/
def SwappedIn (t i : Nat) (table : List Allocation) : Prop :=
  ∃ a ∈ table, a.id = i ∧ a.status = "swapped" ∧ a.swapped_to_mo = some t

theorem IdIn_map_append (f : Allocation → Allocation)
    (hf : ∀ x, (f x).id = x.id) (m table : List Allocation) (i : Nat)
    (h : IdIn i table) : IdIn i (table.map f ++ m) := by
  obtain ⟨a, ha, hai⟩ := h
  exact ⟨f a, List.mem_append_left m (List.mem_map_of_mem f ha),
    (hf a).trans hai⟩

/-- Candidates of `find_swappable_allocations` are reserved and swappable
(and owned by an `on_hold` MO of strictly lower priority). -/
theorem mem_findSwappable_props (targetMo : MORec) (targetMaterial : Option Nat)
    (mos : List MORec) (allocs : List Allocation) (c : Allocation)
    (hc : c ∈ findSwappableAllocations targetMo targetMaterial mos allocs) :
    c.status = "reserved" ∧ c.can_be_swapped = true ∧ c ∈ allocs := by
  cases targetMaterial with
  | none => cases hc
  | some mat =>
      have hmem := (mem_sortWith (swapCandidateLE mos) c _).mp hc
      have hfil := List.mem_filter.mp hmem
      have hpred := hfil.2
      unfold swappablePred at hpred
      simp only [Bool.and_eq_true, beq_iff_eq] at hpred
      exact ⟨hpred.1.1.2, hpred.1.2, hfil.1⟩

/-- Once a row is recorded as swapped to the target, the rest of the
auto-swap loop keeps it so. -/
theorem autoSwapLoop_preserves_swapped (targetMoId user now : Nat)
    (required : ℚ) (l : List Allocation) (acc : SwapAcc) (i : Nat)
    (h : SwappedIn targetMoId i acc.table) :
    SwappedIn targetMoId i
      (autoSwapLoop targetMoId user now required l acc).table := by
  induction l generalizing acc with
  | nil => simpa [autoSwapLoop] using h
  | cons c rest ih =>
      simp only [autoSwapLoop]
      by_cases hbr : required ≤ acc.total
      · simpa [hbr] using h
      · rw [if_neg hbr]
        by_cases hcond : c.status = "reserved" ∧ c.can_be_swapped = true
        · have hr : swap_to_mo c targetMoId user now acc.fresh =
              (true,
               { c with
                 status := "swapped"
                 can_be_swapped := false
                 swapped_to_mo := some targetMoId },
               some { id := acc.fresh, mo := targetMoId,
                      raw_material := c.raw_material,
                      allocated_quantity_kg := c.allocated_quantity_kg,
                      status := "reserved", can_be_swapped := true,
                      allocated_at := now }) := by
            unfold swap_to_mo
            rw [if_pos hcond]
          rw [hr]
          simp only [if_true]
          apply ih
          obtain ⟨a, ha, hai, hst, html⟩ := h
          by_cases hid : a.id = c.id
          · refine ⟨{ c with
              status := "swapped"
              can_be_swapped := false
              swapped_to_mo := some targetMoId }, ?_, ?_, rfl, rfl⟩
            · refine List.mem_append_left _ ?_
              refine List.mem_map.mpr ⟨a, ha, ?_⟩
              rw [if_pos hid]
            · simpa [hid] using hai
          · refine ⟨a, ?_, hai, hst, html⟩
            refine List.mem_append_left _ ?_
            refine List.mem_map.mpr ⟨a, ha, ?_⟩
            rw [if_neg hid]
        · have hr : (swap_to_mo c targetMoId user now acc.fresh).1 = false := by
            unfold swap_to_mo
            rw [if_neg hcond]
          rw [if_neg (by rw [hr]; exact Bool.false_ne_true)]
          exact ih acc h

/-- A failing auto-swap run (candidates exhausted below the requirement)
processed every candidate: one history row each, the total is the whole
candidate quantity, and every candidate's row ends up swapped to the
target. -/
theorem autoSwapLoop_no_break (targetMoId user now : Nat) (required : ℚ)
    (l : List Allocation) (acc : SwapAcc)
    (hswap : ∀ c ∈ l, c.status = "reserved" ∧ c.can_be_swapped = true)
    (hid : ∀ c ∈ l, IdIn c.id acc.table)
    (hfail : ¬ required ≤ (autoSwapLoop targetMoId user now required l acc).total) :
    (autoSwapLoop targetMoId user now required l acc).history.length =
      acc.history.length + l.length ∧
    (autoSwapLoop targetMoId user now required l acc).total =
      acc.total + sumQty l ∧
    ∀ c ∈ l, SwappedIn targetMoId c.id
      (autoSwapLoop targetMoId user now required l acc).table := by
  induction l generalizing acc with
  | nil =>
      refine ⟨by simp [autoSwapLoop], by simp [autoSwapLoop, sumQty_nil], ?_⟩
      intro c hc
      cases hc
  | cons c rest ih =>
      have hcond := hswap c (List.mem_cons_self c rest)
      by_cases hbr : required ≤ acc.total
      · exfalso
        apply hfail
        simp only [autoSwapLoop, if_pos hbr]
        exact hbr
      · have hr : swap_to_mo c targetMoId user now acc.fresh =
            (true,
             { c with
               status := "swapped"
               can_be_swapped := false
               swapped_to_mo := some targetMoId },
             some { id := acc.fresh, mo := targetMoId,
                    raw_material := c.raw_material,
                    allocated_quantity_kg := c.allocated_quantity_kg,
                    status := "reserved", can_be_swapped := true,
                    allocated_at := now }) := by
          unfold swap_to_mo
          rw [if_pos hcond]
        have hstep : autoSwapLoop targetMoId user now required (c :: rest) acc =
            autoSwapLoop targetMoId user now required rest
              { table :=
                  (acc.table.map (fun x => if x.id = c.id then
                    { c with
                      status := "swapped"
                      can_be_swapped := false
                      swapped_to_mo := some targetMoId } else x)) ++
                    [{ id := acc.fresh, mo := targetMoId,
                       raw_material := c.raw_material,
                       allocated_quantity_kg := c.allocated_quantity_kg,
                       status := "reserved", can_be_swapped := true,
                       allocated_at := now }],
                history := acc.history ++
                  [{ allocation := c.id, action := "swapped",
                     from_mo := some c.mo, to_mo := some targetMoId,
                     quantity_kg := c.allocated_quantity_kg,
                     performed_by := user }],
                total := acc.total + c.allocated_quantity_kg,
                count := acc.count + 1,
                fresh := acc.fresh + 1 } := by
          simp only [autoSwapLoop, if_neg hbr, hr]
          rw [if_pos trivial]
        rw [hstep] at hfail ⊢
        have hfid : ∀ x : Allocation,
            ((fun x => if x.id = c.id then
              { c with
                status := "swapped"
                can_be_swapped := false
                swapped_to_mo := some targetMoId } else x) x).id = x.id := by
          intro x
          by_cases hx : x.id = c.id
          · simp [hx]
          · simp [hx]
        obtain ⟨hlen, htot, hall⟩ := ih _
          (fun d hd => hswap d (List.mem_cons_of_mem c hd))
          (fun d hd => IdIn_map_append _ hfid _ _ _
            (hid d (List.mem_cons_of_mem c hd)))
          hfail
        refine ⟨?_, ?_, ?_⟩
        · rw [hlen]
          simp only [List.length_append, List.length_cons, List.length_nil]
          omega
        · rw [htot]
          simp only [sumQty_cons]
          ring
        · intro d hd
          rcases List.mem_cons.mp hd with hdc | hdr
          · subst hdc
            apply autoSwapLoop_preserves_swapped
            obtain ⟨a, ha, hai⟩ := hid d (List.mem_cons_self d rest)
            refine ⟨{ d with
              status := "swapped"
              can_be_swapped := false
              swapped_to_mo := some targetMoId }, ?_, rfl, rfl, rfl⟩
            refine List.mem_append_left _ ?_
            refine List.mem_map.mpr ⟨a, ha, ?_⟩
            rw [if_pos hai]
          · exact hall d hdr

/-- C3 (amended): auto-swap reports success exactly when the cumulative
swapped quantity reaches the target MO's requirement; but a failing attempt
is NOT rolled back — every candidate was swapped (one history row each, the
whole candidate quantity accumulated) and each candidate's row remains
`swapped` to the target in the returned state. -/
theorem auto_swap_success_iff_no_rollback (targetMo : MORec)
    (targetMaterial : Option Nat) (mos : List MORec)
    (allocs : List Allocation) (user now fresh : Nat)
    (hreq : 0 < targetMo.rm_required_kg) :
    ((autoSwapAllocations targetMo targetMaterial mos allocs user now
        fresh).success = true ↔
      targetMo.rm_required_kg ≤
        (autoSwapAllocations targetMo targetMaterial mos allocs user now
          fresh).total_quantity_kg) ∧
    ((autoSwapAllocations targetMo targetMaterial mos allocs user now
        fresh).success = false →
      (autoSwapAllocations targetMo targetMaterial mos allocs user now
          fresh).history.length =
        (findSwappableAllocations targetMo targetMaterial mos allocs).length ∧
      (autoSwapAllocations targetMo targetMaterial mos allocs user now
          fresh).total_quantity_kg =
        sumQty (findSwappableAllocations targetMo targetMaterial mos allocs) ∧
      ∀ c ∈ findSwappableAllocations targetMo targetMaterial mos allocs,
        SwappedIn targetMo.id c.id
          (autoSwapAllocations targetMo targetMaterial mos allocs user now
            fresh).allocs) := by
  unfold autoSwapAllocations
  by_cases hemp :
      (findSwappableAllocations targetMo targetMaterial mos allocs).isEmpty
  · rw [if_pos hemp]
    have hnil : findSwappableAllocations targetMo targetMaterial mos allocs
        = [] := List.isEmpty_iff.mp hemp
    refine ⟨?_, ?_⟩
    · simp only []
      constructor
      · intro hfalse
        cases hfalse
      · intro hle
        exact absurd hle (not_le.mpr hreq)
    · intro _
      rw [hnil]
      exact ⟨rfl, rfl, fun c hc => absurd hc (List.not_mem_nil c)⟩
  · rw [if_neg hemp]
    by_cases hfin : targetMo.rm_required_kg ≤
        (autoSwapLoop targetMo.id user now targetMo.rm_required_kg
          (findSwappableAllocations targetMo targetMaterial mos allocs)
          ⟨allocs, [], 0, 0, fresh⟩).total
    · rw [if_pos hfin]
      refine ⟨⟨fun _ => hfin, fun _ => rfl⟩, ?_⟩
      intro hfalse
      cases hfalse
    · rw [if_neg hfin]
      refine ⟨⟨fun h => absurd h Bool.false_ne_true, fun h => absurd h hfin⟩, ?_⟩
      intro _
      obtain ⟨hlen, htot, hall⟩ := autoSwapLoop_no_break targetMo.id user now
        targetMo.rm_required_kg
        (findSwappableAllocations targetMo targetMaterial mos allocs)
        ⟨allocs, [], 0, 0, fresh⟩
        (fun c hc => ⟨(mem_findSwappable_props _ _ _ _ c hc).1,
          (mem_findSwappable_props _ _ _ _ c hc).2.1⟩)
        (fun c hc => ⟨c, (mem_findSwappable_props _ _ _ _ c hc).2.2, rfl⟩)
        hfin
      refine ⟨?_, ?_, hall⟩
      · simpa using hlen
      · simpa using htot

/-- Witness for C3: a single 30 kg reserved allocation on a lower-priority
on-hold MO fully covers the 30 kg requirement of the high-priority target,
so the success-iff-covered equivalence applies with a positive
requirement. -/
theorem auto_swap_success_iff_no_rollback_witness :
    (0 : ℚ) < 30 ∧
    ((autoSwapAllocations
        { id := 3, status := "on_hold", priority := "high", quantity := 100,
          tolerance_percentage := none, rm_required_kg := 30 }
        (some 7)
        [{ id := 1, status := "on_hold", priority := "low", quantity := 10,
           tolerance_percentage := none, rm_required_kg := 30 }]
        [{ id := 1, mo := 1, raw_material := 7, allocated_quantity_kg := 30,
           status := "reserved", can_be_swapped := true, allocated_at := 0 }]
        5 100 50).success = true ↔
      (30 : ℚ) ≤ (autoSwapAllocations
        { id := 3, status := "on_hold", priority := "high", quantity := 100,
          tolerance_percentage := none, rm_required_kg := 30 }
        (some 7)
        [{ id := 1, status := "on_hold", priority := "low", quantity := 10,
           tolerance_percentage := none, rm_required_kg := 30 }]
        [{ id := 1, mo := 1, raw_material := 7, allocated_quantity_kg := 30,
           status := "reserved", can_be_swapped := true, allocated_at := 0 }]
        5 100 50).total_quantity_kg) :=
  ⟨by norm_num,
   (auto_swap_success_iff_no_rollback
     { id := 3, status := "on_hold", priority := "high", quantity := 100,
       tolerance_percentage := none, rm_required_kg := 30 }
     (some 7)
     [{ id := 1, status := "on_hold", priority := "low", quantity := 10,
        tolerance_percentage := none, rm_required_kg := 30 }]
     [{ id := 1, mo := 1, raw_material := 7, allocated_quantity_kg := 30,
        status := "reserved", can_be_swapped := true, allocated_at := 0 }]
     5 100 50 (by norm_num)).1⟩

/-- Counterexample for C3 as stated: the target needs 30 kg but the only
candidate holds 10 kg.  The attempt reports failure, yet it is not rolled
back — the candidate allocation ends `swapped` (a mirror `reserved` row
appears on the target) and a history row was written, so the candidate
state and the history are NOT left unchanged. -/
theorem auto_swap_rollback_counterexample :
    (autoSwapAllocations
        { id := 3, status := "on_hold", priority := "high", quantity := 100,
          tolerance_percentage := none, rm_required_kg := 30 }
        (some 7)
        [{ id := 1, status := "on_hold", priority := "low", quantity := 10,
           tolerance_percentage := none, rm_required_kg := 30 }]
        [{ id := 1, mo := 1, raw_material := 7, allocated_quantity_kg := 10,
           status := "reserved", can_be_swapped := true, allocated_at := 0 }]
        5 100 50).success = false ∧
    ((autoSwapAllocations
        { id := 3, status := "on_hold", priority := "high", quantity := 100,
          tolerance_percentage := none, rm_required_kg := 30 }
        (some 7)
        [{ id := 1, status := "on_hold", priority := "low", quantity := 10,
           tolerance_percentage := none, rm_required_kg := 30 }]
        [{ id := 1, mo := 1, raw_material := 7, allocated_quantity_kg := 10,
           status := "reserved", can_be_swapped := true, allocated_at := 0 }]
        5 100 50).allocs.map (fun a => (a.id, a.status, a.swapped_to_mo))) =
      [(1, "swapped", some 3), (50, "reserved", none)] ∧
    (autoSwapAllocations
        { id := 3, status := "on_hold", priority := "high", quantity := 100,
          tolerance_percentage := none, rm_required_kg := 30 }
        (some 7)
        [{ id := 1, status := "on_hold", priority := "low", quantity := 10,
           tolerance_percentage := none, rm_required_kg := 30 }]
        [{ id := 1, mo := 1, raw_material := 7, allocated_quantity_kg := 10,
           status := "reserved", can_be_swapped := true, allocated_at := 0 }]
        5 100 50).history.length = 1 := by
  refine ⟨?_, ?_, ?_⟩ <;>
    norm_num [autoSwapAllocations, autoSwapLoop, swap_to_mo,
      findSwappableAllocations, swappablePred, lookupMo, lowerPriorityStatuses,
      priorityOrder, priorityValue, sortWith, insertSortedBy, swapCandidateLE]

/-! ## Batch process completion and progress (C1, C2)

`BatchProcessExecutionViewSet.complete_batch_process`
(views/batch_views.py:129-368) and `BatchViewSet.perform_create`
(core_views.py:2370-2442). -/

/-- The state fragment these views read and write: the MO row, its product,
its batches, its process executions and its RM allocations. -/
structure MOState where
  mo : MORec
  product : ProductRec
  batches : List BatchRec
  execs : List ExecRec
  allocations : List Allocation
deriving Repr, DecidableEq

/-- `Batch.objects.get(id=batch_id)` restricted to the MO's batches. -/
def findBatch (bs : List BatchRec) (i : Nat) : Option BatchRec :=
  bs.find? (fun b => b.id == i)

/-- `MOProcessExecution.objects.get(id=process_id)`. -/
def findExec (es : List ExecRec) (i : Nat) : Option ExecRec :=
  es.find? (fun e => e.id == i)

/-- Row rewrite of the batch with the given id (`batch.save()`). -/
def updateBatch (bs : List BatchRec) (i : Nat) (f : BatchRec → BatchRec) :
    List BatchRec :=
  bs.map (fun b => if b.id = i then f b else b)

/-- `Batch.objects.filter(mo=mo).exclude(status='cancelled')`. -/
def activeBatches (bs : List BatchRec) : List BatchRec :=
  bs.filter (fun b => b.status != "cancelled")

/-- Per-batch RM as `complete_batch_process` computes it
(batch_views.py:247-273): coil grams with tolerance, sheet strip
proportion; any other combination contributes 0 (the accumulator is left
at `Decimal('0')`). -/
def batchRmKgView (mo : MORec) (product : ProductRec) (planned : ℚ) : ℚ :=
  if product.material_type = "coil" ∧ product.grams_per_product ≠ 0 then
    (planned / 1000) * (1 + toleranceOf mo / 100)
  else if product.material_type = "sheet" ∧ product.pcs_per_strip ≠ 0 then
    let mo_total_strips :=
      match product.strips_calc with
      | some s => s
      | none =>
          if 0 < product.pcs_per_strip then mo.quantity / product.pcs_per_strip
          else mo.quantity
    if 0 < mo_total_strips ∧ mo.rm_required_kg ≠ 0 then
      mo.rm_required_kg * (planned / mo_total_strips)
    else 0
  else 0

/-- `total_allocated_rm_kg` (batch_views.py:233-241): the MO's allocations
in status `reserved` or `locked`. -/
def totalAllocatedRmKg (s : MOState) : ℚ :=
  sumQty (s.allocations.filter (fun a =>
    a.mo == s.mo.id && (a.status == "reserved" || a.status == "locked")))

/-- `cumulative_batch_rm_kg` (batch_views.py:243-273): per-batch RM summed
over the non-cancelled batches. -/
def cumulativeBatchRmKg (mo : MORec) (product : ProductRec)
    (bs : List BatchRec) : ℚ :=
  (activeBatches bs).foldr
    (fun b acc => batchRmKgView mo product b.planned_quantity + acc) 0

/-- `rm_batched_percentage` (batch_views.py:275-281): share of the
allocated RM represented by batches, 0 with no positive allocation. -/
def rmBatchedPct (total_alloc cumulative : ℚ) : ℚ :=
  if 0 < total_alloc then cumulative / total_alloc * 100 else 0

/-- Count of non-cancelled batches whose notes carry the `completed` marker
of the process execution (batch_views.py:294-300). -/
def completedForProc (bs : List BatchRec) (pid : Nat) : Nat :=
  ((activeBatches bs).filter (fun b => hasCompletedMarker b.notes pid)).length

/-- `all_batches_completed_process` (batch_views.py:284-291). -/
def allCompletedForProc (bs : List BatchRec) (pid : Nat) : Bool :=
  (activeBatches bs).all (fun b => hasCompletedMarker b.notes pid)

/-- The per-execution update of `complete_batch_process`
(batch_views.py:302-337): with at least one batch, set the progress to
`100·completed/total`; complete the execution exactly when all batches
completed the process, the RM-batched share is ≥ 90 % and the allocation
total is positive (setting `actual_end_time` on a fresh completion and
forcing progress 100); otherwise revert a `completed` execution to
`in_progress` with `actual_end_time` cleared.  With no batches nothing
changes. -/
def completeStepExec (p : ExecRec) (total completed : Nat) (all_done : Bool)
    (rm_pct total_alloc : ℚ) (now : Nat) : ExecRec :=
  if 0 < total then
    if all_done = true ∧ 90 ≤ rm_pct ∧ 0 < total_alloc then
      { p with
        status := "completed"
        actual_end_time :=
          if p.status ≠ "completed" then some now else p.actual_end_time
        progress_percentage := 100 }
    else
      { p with
        progress_percentage := (completed : ℚ) / (total : ℚ) * 100
        status := if p.status = "completed" then "in_progress" else p.status
        actual_end_time :=
          if p.status = "completed" then none else p.actual_end_time }
  else p

/-- Batch list after the marker rewrite of `complete_batch_process`
(batch_views.py:188-200). -/
def batchesAfterMarker (s : MOState) (batchId pid : Nat) : List BatchRec :=
  updateBatch s.batches batchId
    (fun b => { b with notes := completeMarkerRewrite b.notes pid })

/-- `batch_completed_all` (batch_views.py:202-210): the rewritten batch
carries the `completed` marker of every process execution of the MO. -/
def batchCompletedAll (s : MOState) (batchId pid : Nat) : Bool :=
  let bNotes :=
    match findBatch (batchesAfterMarker s batchId pid) batchId with
    | some b => b.notes
    | none => []
  s.execs.all (fun p => hasCompletedMarker bNotes p.id)

/-- Batch list after `complete_batch_process` marked the batch completed
when it finished its last process (batch_views.py:212-216). -/
def batchesAfterComplete (s : MOState) (batchId pid now : Nat) : List BatchRec :=
  if batchCompletedAll s batchId pid then
    updateBatch (batchesAfterMarker s batchId pid) batchId
      (fun b => { b with status := "completed", actual_end_date := some now })
  else
    batchesAfterMarker s batchId pid

/-- Core of `complete_batch_process` after the guards pass
(batch_views.py:188-337): rewrite the batch's marker, possibly complete the
batch, recompute the RM-batched share and the per-batch completion counts,
and update the touched process execution. -/
def completeBatchProcessCore (s : MOState) (batchId pid now : Nat) : MOState :=
  let bs2 := batchesAfterComplete s batchId pid now
  { s with
    batches := bs2
    execs := s.execs.map (fun p =>
      if p.id = pid then
        completeStepExec p (activeBatches bs2).length
          (completedForProc bs2 pid) (allCompletedForProc bs2 pid)
          (rmBatchedPct (totalAllocatedRmKg s)
            (cumulativeBatchRmKg s.mo s.product bs2))
          (totalAllocatedRmKg s) now
      else p) }

/-- Embedding of `complete_batch_process` (batch_views.py:129-368): 404 on
a missing batch or execution and 400 unless the execution is `in_progress`
(or the MO is stopped with the batch already started) leave the state
untouched; otherwise the core update runs. -/
def completeBatchProcess (s : MOState) (batchId pid now : Nat) : MOState :=
  match findBatch s.batches batchId, findExec s.execs pid with
  | some batch, some pexec =>
      if pexec.status = "in_progress" ∨
          (s.mo.status = "stopped" ∧
            (batch.status = "in_process" ∨ batch.status = "in_progress")) then
        completeBatchProcessCore s batchId pid now
      else s
  | _, _ => s

/-- The per-execution update of `perform_create` (core_views.py:2408-2437):
with at least one non-cancelled batch, recompute the progress and revert a
`completed` execution whose completed-batch count fell below the batch
count to `in_progress` with `actual_end_time` cleared. -/
def createStepExec (p : ExecRec) (total completed : Nat) : ExecRec :=
  if 0 < total then
    { p with
      progress_percentage := (completed : ℚ) / (total : ℚ) * 100
      status :=
        if p.status = "completed" ∧ completed < total then "in_progress"
        else p.status
      actual_end_time :=
        if p.status = "completed" ∧ completed < total then none
        else p.actual_end_time }
  else p

/-- Embedding of the progress recomputation of `BatchViewSet.perform_create`
(core_views.py:2397-2442): append the created batch, then update every
process execution of the MO from the new non-cancelled batch set. -/
def performCreateProgressUpdate (s : MOState) (newBatch : BatchRec) : MOState :=
  { s with
    batches := s.batches ++ [newBatch]
    execs := s.execs.map (fun e =>
      createStepExec e (activeBatches (s.batches ++ [newBatch])).length
        (completedForProc (s.batches ++ [newBatch]) e.id)) }

/-- The progress formula of the spec and of both recomputation sites:
`100·completed/total`, 0 with no batches. -/
def progressFormula (completed total : Nat) : ℚ :=
  if 0 < total then (completed : ℚ) / (total : ℚ) * 100 else 0

theorem completedForProc_le (bs : List BatchRec) (pid : Nat) :
    completedForProc bs pid ≤ (activeBatches bs).length :=
  List.length_filter_le _ _

theorem progressFormula_bounds (completed total : Nat)
    (h : completed ≤ total) :
    0 ≤ progressFormula completed total ∧ progressFormula completed total ≤ 100 := by
  unfold progressFormula
  by_cases ht : 0 < total
  · rw [if_pos ht]
    constructor
    · positivity
    · have htq : (0:ℚ) < (total : ℚ) := by exact_mod_cast ht
      have hcq : (completed : ℚ) ≤ (total : ℚ) := by exact_mod_cast h
      have hdiv : (completed : ℚ) / (total : ℚ) ≤ 1 :=
        (div_le_one htq).mpr hcq
      nlinarith
  · rw [if_neg ht]
    norm_num

theorem findExec_map_update (es : List ExecRec) (pid : Nat)
    (f : ExecRec → ExecRec) (hf : ∀ p, (f p).id = p.id) :
    findExec (es.map (fun p => if p.id = pid then f p else p)) pid =
      Option.map f (findExec es pid) := by
  induction es with
  | nil => rfl
  | cons p rest ih =>
      unfold findExec at *
      by_cases hp : p.id = pid
      · rw [List.map_cons]
        rw [if_pos hp]
        rw [List.find?_cons_of_pos _ (by simp [hf p, hp])]
        rw [List.find?_cons_of_pos _ (by simp [hp])]
        rfl
      · rw [List.map_cons]
        rw [if_neg hp]
        rw [List.find?_cons_of_neg _ (by simp [hp])]
        rw [List.find?_cons_of_neg _ (by simp [hp])]
        exact ih

theorem completeStepExec_id (p : ExecRec) (total completed : Nat)
    (all_done : Bool) (rm_pct total_alloc : ℚ) (now : Nat) :
    (completeStepExec p total completed all_done rm_pct total_alloc now).id =
      p.id := by
  unfold completeStepExec
  by_cases h1 : 0 < total
  · rw [if_pos h1]
    by_cases h2 : all_done = true ∧ 90 ≤ rm_pct ∧ 0 < total_alloc
    · rw [if_pos h2]
    · rw [if_neg h2]
  · rw [if_neg h1]

/-- All non-cancelled batches completed the process exactly when the
completed count equals the batch count. -/
theorem allCompleted_iff_count (bs : List BatchRec) (pid : Nat) :
    allCompletedForProc bs pid = true ↔
      completedForProc bs pid = (activeBatches bs).length := by
  unfold allCompletedForProc completedForProc
  rw [List.all_eq_true, List.filter_length_eq_length]

/-- The updated image of a batch stays in the batch list. -/
theorem updateBatch_mem (bs : List BatchRec) (i : Nat)
    (f : BatchRec → BatchRec) (b : BatchRec) (hb : b ∈ bs) (hbi : b.id = i) :
    f b ∈ updateBatch bs i f := by
  unfold updateBatch
  refine List.mem_map.mpr ⟨b, hb, ?_⟩
  rw [if_pos hbi]

/-- The completing batch survives as a non-cancelled batch of the rewritten
batch list, so the batch count is positive. -/
theorem batchesAfterComplete_total_pos (s : MOState) (batchId pid now : Nat)
    (batch : BatchRec) (hb : findBatch s.batches batchId = some batch)
    (hnc : batch.status ≠ "cancelled") :
    0 < (activeBatches (batchesAfterComplete s batchId pid now)).length := by
  have hmem : batch ∈ s.batches := List.mem_of_find?_eq_some hb
  have hbi : batch.id = batchId := by
    have := List.find?_some hb
    simpa using this
  unfold batchesAfterComplete
  by_cases hall : batchCompletedAll s batchId pid
  · rw [if_pos hall]
    have hmem1 : ({ batch with
        notes := completeMarkerRewrite batch.notes pid } : BatchRec) ∈
        batchesAfterMarker s batchId pid :=
      updateBatch_mem s.batches batchId _ batch hmem hbi
    have hmem2 := updateBatch_mem (batchesAfterMarker s batchId pid) batchId
      (fun b => { b with status := "completed", actual_end_date := some now })
      ({ batch with notes := completeMarkerRewrite batch.notes pid }) hmem1 hbi
    have hmem3 : ({ batch with
        notes := completeMarkerRewrite batch.notes pid
        status := "completed"
        actual_end_date := some now } : BatchRec) ∈
        activeBatches (updateBatch (batchesAfterMarker s batchId pid) batchId
          (fun b => { b with status := "completed", actual_end_date := some now })) :=
      List.mem_filter.mpr ⟨hmem2, by simp⟩
    exact List.length_pos.mpr (List.ne_nil_of_mem hmem3)
  · rw [if_neg hall]
    have hmem2 : ({ batch with
        notes := completeMarkerRewrite batch.notes pid } : BatchRec) ∈
        batchesAfterMarker s batchId pid :=
      updateBatch_mem s.batches batchId _ batch hmem hbi
    have hmem3 : ({ batch with
        notes := completeMarkerRewrite batch.notes pid } : BatchRec) ∈
        activeBatches (batchesAfterMarker s batchId pid) :=
      List.mem_filter.mpr ⟨hmem2, by simpa using hnc⟩
    exact List.length_pos.mpr (List.ne_nil_of_mem hmem3)

/-- C1: after a batch completes a process (guards passed, the batch not
cancelled), the touched process execution's status is `completed` exactly
when every non-cancelled batch carries the `completed` marker of that
process AND the RM-batched share is at least 90 % of the MO's
reserved-plus-locked allocation total AND that total is positive. -/
theorem process_completion_gate (s : MOState) (batchId pid now : Nat)
    (batch : BatchRec) (pexec : ExecRec)
    (hb : findBatch s.batches batchId = some batch)
    (hp : findExec s.execs pid = some pexec)
    (hguard : pexec.status = "in_progress" ∨
      (s.mo.status = "stopped" ∧
        (batch.status = "in_process" ∨ batch.status = "in_progress")))
    (hnc : batch.status ≠ "cancelled") :
    ∃ p', findExec (completeBatchProcess s batchId pid now).execs pid = some p' ∧
      (p'.status = "completed" ↔
        (allCompletedForProc (completeBatchProcess s batchId pid now).batches
            pid = true ∧
         90 ≤ rmBatchedPct (totalAllocatedRmKg s)
           (cumulativeBatchRmKg s.mo s.product
             (completeBatchProcess s batchId pid now).batches) ∧
         0 < totalAllocatedRmKg s)) := by
  have hrun : completeBatchProcess s batchId pid now =
      completeBatchProcessCore s batchId pid now := by
    unfold completeBatchProcess
    rw [hb, hp]
    exact if_pos hguard
  rw [hrun]
  have hbatches : (completeBatchProcessCore s batchId pid now).batches =
      batchesAfterComplete s batchId pid now := rfl
  rw [hbatches]
  have hfind : findExec (completeBatchProcessCore s batchId pid now).execs pid =
      Option.map (fun p =>
        completeStepExec p
          (activeBatches (batchesAfterComplete s batchId pid now)).length
          (completedForProc (batchesAfterComplete s batchId pid now) pid)
          (allCompletedForProc (batchesAfterComplete s batchId pid now) pid)
          (rmBatchedPct (totalAllocatedRmKg s)
            (cumulativeBatchRmKg s.mo s.product
              (batchesAfterComplete s batchId pid now)))
          (totalAllocatedRmKg s) now)
        (findExec s.execs pid) := by
    apply findExec_map_update
    intro p
    exact completeStepExec_id _ _ _ _ _ _ _
  rw [hfind, hp]
  refine ⟨_, rfl, ?_⟩
  have htot := batchesAfterComplete_total_pos s batchId pid now batch hb hnc
  simp only [completeStepExec]
  rw [if_pos htot]
  by_cases hgate :
      allCompletedForProc (batchesAfterComplete s batchId pid now) pid = true ∧
      90 ≤ rmBatchedPct (totalAllocatedRmKg s)
        (cumulativeBatchRmKg s.mo s.product
          (batchesAfterComplete s batchId pid now)) ∧
      0 < totalAllocatedRmKg s
  · rw [if_pos hgate]
    exact ⟨fun _ => hgate, fun _ => rfl⟩
  · rw [if_neg hgate]
    refine ⟨?_, fun hg => absurd hg hgate⟩
    intro hst
    exfalso
    have hst2 : (if pexec.status = "completed" then "in_progress"
        else pexec.status) = "completed" := hst
    by_cases hc : pexec.status = "completed"
    · rw [if_pos hc] at hst2
      exact absurd hst2 (by simp)
    · rw [if_neg hc] at hst2
      exact hc hst2

/-- Boundary scenario at exactly 90 % RM accounted: 10 kg allocated, one
7200 g coil batch with 25 % tolerance (9 kg batched), single process. -/
def gw90 : MOState :=
  { mo := { id := 1, status := "in_progress", priority := "medium",
            quantity := 1000, tolerance_percentage := some 25,
            rm_required_kg := 9 },
    product := { material_type := "coil", grams_per_product := 9,
                 pcs_per_strip := 0, strips_calc := none },
    batches := [{ id := 11, status := "in_process", planned_quantity := 7200,
                  notes := [] }],
    execs := [{ id := 1, mo := 1, process := 4, sequence_order := 1,
                status := "in_progress", progress_percentage := 0,
                actual_end_time := none }],
    allocations := [{ id := 21, mo := 1, raw_material := 7,
                      allocated_quantity_kg := 10, status := "reserved",
                      can_be_swapped := true, allocated_at := 0 }] }

/-- Boundary scenario at 89.9 % RM accounted: as `gw90` but the batch holds
7192 g (8.99 kg batched of 10 kg allocated). -/
def gw899 : MOState :=
  { gw90 with
    batches := [{ id := 11, status := "in_process", planned_quantity := 7192,
                  notes := [] }] }

/-- Witness for C1 at the gate boundary: at exactly 90.0 % RM accounted
with the only batch completed, the execution flips to `completed`; at
89.9 % it does not. -/
theorem process_completion_gate_witness :
    (∃ p', findExec (completeBatchProcess gw90 11 1 100).execs 1 = some p' ∧
      p'.status = "completed") ∧
    (∃ q', findExec (completeBatchProcess gw899 11 1 100).execs 1 = some q' ∧
      q'.status ≠ "completed") := by
  constructor
  · obtain ⟨p', hfind, hiff⟩ := process_completion_gate gw90 11 1 100
      { id := 11, status := "in_process", planned_quantity := 7200, notes := [] }
      { id := 1, mo := 1, process := 4, sequence_order := 1,
        status := "in_progress", progress_percentage := 0,
        actual_end_time := none }
      rfl rfl (Or.inl rfl) (by simp)
    refine ⟨p', hfind, hiff.mpr ⟨?_, ?_, ?_⟩⟩
    · norm_num [gw90, completeBatchProcess, completeBatchProcessCore,
        batchesAfterComplete, batchCompletedAll, batchesAfterMarker,
        updateBatch, findBatch, findExec, completeMarkerRewrite, setProcStatus,
        removeProcMarkers, hasCompletedMarker, activeBatches,
        allCompletedForProc]
    · norm_num [gw90, completeBatchProcess, completeBatchProcessCore,
        batchesAfterComplete, batchCompletedAll, batchesAfterMarker,
        updateBatch, findBatch, findExec, completeMarkerRewrite, setProcStatus,
        removeProcMarkers, hasCompletedMarker, activeBatches,
        totalAllocatedRmKg, sumQty, cumulativeBatchRmKg, batchRmKgView,
        toleranceOf, rmBatchedPct, List.filter_cons, List.filter_nil,
        List.foldr_cons, List.foldr_nil, bne]
      simp
      norm_num
    · norm_num [gw90, totalAllocatedRmKg, sumQty]
  · obtain ⟨q', hfind, hiff⟩ := process_completion_gate gw899 11 1 100
      { id := 11, status := "in_process", planned_quantity := 7192, notes := [] }
      { id := 1, mo := 1, process := 4, sequence_order := 1,
        status := "in_progress", progress_percentage := 0,
        actual_end_time := none }
      rfl rfl (Or.inl rfl) (by simp)
    refine ⟨q', hfind, fun hst => ?_⟩
    have hg := hiff.mp hst
    have hlt : ¬ (90 : ℚ) ≤ rmBatchedPct (totalAllocatedRmKg gw899)
        (cumulativeBatchRmKg gw899.mo gw899.product
          (completeBatchProcess gw899 11 1 100).batches) := by
      norm_num [gw899, gw90, completeBatchProcess, completeBatchProcessCore,
        batchesAfterComplete, batchCompletedAll, batchesAfterMarker,
        updateBatch, findBatch, findExec, completeMarkerRewrite, setProcStatus,
        removeProcMarkers, hasCompletedMarker, activeBatches,
        totalAllocatedRmKg, sumQty, cumulativeBatchRmKg, batchRmKgView,
        toleranceOf, rmBatchedPct, List.filter_cons, List.filter_nil,
        List.foldr_cons, List.foldr_nil, bne]
      simp
      norm_num
    exact hlt hg.2.1

theorem createStepExec_id (p : ExecRec) (total completed : Nat) :
    (createStepExec p total completed).id = p.id := by
  unfold createStepExec
  by_cases h : 0 < total
  · rw [if_pos h]
  · rw [if_neg h]

/-- The created batch keeps the batch count positive (it is not
cancelled). -/
theorem create_total_pos (bs : List BatchRec) (nb : BatchRec)
    (hnb : nb.status ≠ "cancelled") :
    0 < (activeBatches (bs ++ [nb])).length := by
  have hmem : nb ∈ activeBatches (bs ++ [nb]) :=
    List.mem_filter.mpr ⟨List.mem_append_right bs (List.mem_singleton_self nb),
      by simpa using hnb⟩
  exact List.length_pos.mpr (List.ne_nil_of_mem hmem)

theorem createStepExec_spec (p : ExecRec) (total completed : Nat)
    (htot : 0 < total) (hle : completed ≤ total) :
    (createStepExec p total completed).progress_percentage =
      progressFormula completed total ∧
    0 ≤ (createStepExec p total completed).progress_percentage ∧
    (createStepExec p total completed).progress_percentage ≤ 100 ∧
    (p.status = "completed" ∧ completed < total →
      (createStepExec p total completed).status = "in_progress" ∧
      (createStepExec p total completed).actual_end_time = none) := by
  have hform : progressFormula completed total =
      (completed : ℚ) / (total : ℚ) * 100 := by
    unfold progressFormula
    rw [if_pos htot]
  have hbounds := progressFormula_bounds completed total hle
  unfold createStepExec
  rw [if_pos htot]
  refine ⟨?_, ?_, ?_, ?_⟩
  · show (completed : ℚ) / (total : ℚ) * 100 = _
    rw [hform]
  · show 0 ≤ (completed : ℚ) / (total : ℚ) * 100
    rw [← hform]
    exact hbounds.1
  · show (completed : ℚ) / (total : ℚ) * 100 ≤ 100
    rw [← hform]
    exact hbounds.2
  · intro hrev
    constructor
    · show (if p.status = "completed" ∧ completed < total then "in_progress"
        else p.status) = _
      rw [if_pos hrev]
    · show (if p.status = "completed" ∧ completed < total then none
        else p.actual_end_time) = _
      rw [if_pos hrev]

theorem completeStepExec_spec (p : ExecRec) (total completed : Nat)
    (all_done : Bool) (rm_pct total_alloc : ℚ) (now : Nat)
    (htot : 0 < total) (hle : completed ≤ total)
    (hall : all_done = true → completed = total) :
    (completeStepExec p total completed all_done rm_pct total_alloc
        now).progress_percentage = progressFormula completed total ∧
    0 ≤ (completeStepExec p total completed all_done rm_pct total_alloc
        now).progress_percentage ∧
    (completeStepExec p total completed all_done rm_pct total_alloc
        now).progress_percentage ≤ 100 ∧
    (p.status = "completed" ∧ completed < total →
      (completeStepExec p total completed all_done rm_pct total_alloc
        now).status = "in_progress" ∧
      (completeStepExec p total completed all_done rm_pct total_alloc
        now).actual_end_time = none) := by
  have hform : progressFormula completed total =
      (completed : ℚ) / (total : ℚ) * 100 := by
    unfold progressFormula
    rw [if_pos htot]
  have hbounds := progressFormula_bounds completed total hle
  unfold completeStepExec
  rw [if_pos htot]
  by_cases hgate : all_done = true ∧ 90 ≤ rm_pct ∧ 0 < total_alloc
  · rw [if_pos hgate]
    have hcnt := hall hgate.1
    have h100 : progressFormula completed total = 100 := by
      rw [hform, hcnt]
      have hne : ((total : ℚ)) ≠ 0 := by
        exact_mod_cast Nat.pos_iff_ne_zero.mp htot
      rw [div_self hne]
      norm_num
    refine ⟨?_, ?_, ?_, ?_⟩
    · show (100 : ℚ) = _
      rw [h100]
    · show (0 : ℚ) ≤ 100
      norm_num
    · show (100 : ℚ) ≤ 100
      norm_num
    · intro hrev
      exact absurd hcnt (Nat.ne_of_lt hrev.2)
  · rw [if_neg hgate]
    refine ⟨?_, ?_, ?_, ?_⟩
    · show (completed : ℚ) / (total : ℚ) * 100 = _
      rw [hform]
    · show 0 ≤ (completed : ℚ) / (total : ℚ) * 100
      rw [← hform]
      exact hbounds.1
    · show (completed : ℚ) / (total : ℚ) * 100 ≤ 100
      rw [← hform]
      exact hbounds.2
    · intro hrev
      constructor
      · show (if p.status = "completed" then "in_progress" else p.status) = _
        rw [if_pos hrev.1]
      · show (if p.status = "completed" then none else p.actual_end_time) = _
        rw [if_pos hrev.1]

/-- C2: after a batch is created (`perform_create`) and after a batch
completes a process (`complete_batch_process`), every recomputed process
execution carries progress `100·completed/total` over the current
non-cancelled batch set (hence between 0 and 100), and an execution whose
status was `completed` while its completed-batch count is below the batch
count reverts to `in_progress` with `actual_end_time` cleared. -/
theorem progress_recompute_bounds_and_revert :
    (∀ (s : MOState) (nb : BatchRec), nb.status ≠ "cancelled" →
      ∀ e ∈ s.execs,
        ∃ e', e' ∈ (performCreateProgressUpdate s nb).execs ∧ e'.id = e.id ∧
          e'.progress_percentage =
            progressFormula (completedForProc (s.batches ++ [nb]) e.id)
              ((activeBatches (s.batches ++ [nb])).length) ∧
          0 ≤ e'.progress_percentage ∧ e'.progress_percentage ≤ 100 ∧
          (e.status = "completed" ∧
              completedForProc (s.batches ++ [nb]) e.id <
                (activeBatches (s.batches ++ [nb])).length →
            e'.status = "in_progress" ∧ e'.actual_end_time = none)) ∧
    (∀ (s : MOState) (batchId pid now : Nat) (batch : BatchRec)
        (pexec : ExecRec),
      findBatch s.batches batchId = some batch →
      findExec s.execs pid = some pexec →
      (pexec.status = "in_progress" ∨
        (s.mo.status = "stopped" ∧
          (batch.status = "in_process" ∨ batch.status = "in_progress"))) →
      batch.status ≠ "cancelled" →
      ∃ p', findExec (completeBatchProcess s batchId pid now).execs pid =
          some p' ∧
        p'.progress_percentage =
          progressFormula
            (completedForProc (batchesAfterComplete s batchId pid now) pid)
            ((activeBatches (batchesAfterComplete s batchId pid now)).length) ∧
        0 ≤ p'.progress_percentage ∧ p'.progress_percentage ≤ 100 ∧
        (pexec.status = "completed" ∧
            completedForProc (batchesAfterComplete s batchId pid now) pid <
              (activeBatches (batchesAfterComplete s batchId pid now)).length →
          p'.status = "in_progress" ∧ p'.actual_end_time = none)) := by
  constructor
  · intro s nb hnb e he
    have htot := create_total_pos s.batches nb hnb
    have hle := completedForProc_le (s.batches ++ [nb]) e.id
    have hspec := createStepExec_spec e
      ((activeBatches (s.batches ++ [nb])).length)
      (completedForProc (s.batches ++ [nb]) e.id) htot hle
    exact ⟨createStepExec e ((activeBatches (s.batches ++ [nb])).length)
      (completedForProc (s.batches ++ [nb]) e.id),
      List.mem_map.mpr ⟨e, he, rfl⟩, createStepExec_id _ _ _,
      hspec.1, hspec.2.1, hspec.2.2.1, hspec.2.2.2⟩
  · intro s batchId pid now batch pexec hb hp hguard hnc
    have hrun : completeBatchProcess s batchId pid now =
        completeBatchProcessCore s batchId pid now := by
      unfold completeBatchProcess
      rw [hb, hp]
      exact if_pos hguard
    rw [hrun]
    have hfind : findExec (completeBatchProcessCore s batchId pid now).execs
        pid =
        Option.map (fun p =>
          completeStepExec p
            (activeBatches (batchesAfterComplete s batchId pid now)).length
            (completedForProc (batchesAfterComplete s batchId pid now) pid)
            (allCompletedForProc (batchesAfterComplete s batchId pid now) pid)
            (rmBatchedPct (totalAllocatedRmKg s)
              (cumulativeBatchRmKg s.mo s.product
                (batchesAfterComplete s batchId pid now)))
            (totalAllocatedRmKg s) now)
          (findExec s.execs pid) := by
      apply findExec_map_update
      intro p
      exact completeStepExec_id _ _ _ _ _ _ _
    rw [hfind, hp]
    have htot := batchesAfterComplete_total_pos s batchId pid now batch hb hnc
    have hle := completedForProc_le (batchesAfterComplete s batchId pid now) pid
    have hspec := completeStepExec_spec pexec
      ((activeBatches (batchesAfterComplete s batchId pid now)).length)
      (completedForProc (batchesAfterComplete s batchId pid now) pid)
      (allCompletedForProc (batchesAfterComplete s batchId pid now) pid)
      (rmBatchedPct (totalAllocatedRmKg s)
        (cumulativeBatchRmKg s.mo s.product
          (batchesAfterComplete s batchId pid now)))
      (totalAllocatedRmKg s) now htot hle
      (fun hall => (allCompleted_iff_count _ _).mp hall)
    exact ⟨_, rfl, hspec.1, hspec.2.1, hspec.2.2.1, hspec.2.2.2⟩

/-- A process execution already `completed` before a second batch shows up. -/
def execC2 : ExecRec :=
  { id := 1, mo := 1, process := 4, sequence_order := 1,
    status := "completed", progress_percentage := 100,
    actual_end_time := some 50 }

/-- MO state with one completed batch (marker present) and the execution of
`execC2` completed. -/
def gwC2 : MOState :=
  { mo := { id := 1, status := "in_progress", priority := "medium",
            quantity := 1000, tolerance_percentage := some 25,
            rm_required_kg := 9 },
    product := { material_type := "coil", grams_per_product := 9,
                 pcs_per_strip := 0, strips_calc := none },
    batches := [{ id := 11, status := "completed", planned_quantity := 7200,
                  notes := [(1, "completed")] }],
    execs := [execC2],
    allocations := [] }

/-- The batch being created in the C2 witness scenario. -/
def nbC2 : BatchRec :=
  { id := 12, status := "created", planned_quantity := 7200, notes := [] }

/-- Witness for C2: creating a second batch under `gwC2` recomputes the
completed execution's progress by the formula (1 of 2 batches) and entails
the revert clause; completing a batch under the `gw90` scenario likewise
instantiates the progress/revert facts for the touched execution. -/
theorem progress_recompute_bounds_and_revert_witness :
    (∃ e', e' ∈ (performCreateProgressUpdate gwC2 nbC2).execs ∧
      e'.id = execC2.id ∧
      e'.progress_percentage =
        progressFormula (completedForProc (gwC2.batches ++ [nbC2]) execC2.id)
          ((activeBatches (gwC2.batches ++ [nbC2])).length) ∧
      0 ≤ e'.progress_percentage ∧ e'.progress_percentage ≤ 100 ∧
      (execC2.status = "completed" ∧
          completedForProc (gwC2.batches ++ [nbC2]) execC2.id <
            (activeBatches (gwC2.batches ++ [nbC2])).length →
        e'.status = "in_progress" ∧ e'.actual_end_time = none)) ∧
    (∃ p', findExec (completeBatchProcess gw90 11 1 100).execs 1 = some p' ∧
      p'.progress_percentage =
        progressFormula (completedForProc (batchesAfterComplete gw90 11 1 100) 1)
          ((activeBatches (batchesAfterComplete gw90 11 1 100)).length) ∧
      0 ≤ p'.progress_percentage ∧ p'.progress_percentage ≤ 100 ∧
      (("in_progress" : String) = "completed" ∧
          completedForProc (batchesAfterComplete gw90 11 1 100) 1 <
            (activeBatches (batchesAfterComplete gw90 11 1 100)).length →
        p'.status = "in_progress" ∧ p'.actual_end_time = none)) := by
  constructor
  · exact progress_recompute_bounds_and_revert.1 gwC2 nbC2 (by simp [nbC2])
      execC2 (List.mem_singleton_self execC2)
  · exact progress_recompute_bounds_and_revert.2 gw90 11 1 100
      { id := 11, status := "in_process", planned_quantity := 7200, notes := [] }
      { id := 1, mo := 1, process := 4, sequence_order := 1,
        status := "in_progress", progress_percentage := 0,
        actual_end_time := none }
      rfl rfl (Or.inl rfl) (by simp)

/-! ## MO completion (C6)

`BatchViewSet.complete_batch` (core_views.py:2718-2755). -/

/-- Row of `MOStatusHistory` as `complete_batch` writes it. -/
structure MOStatusHistoryRow where
  mo : Nat
  from_status : String
  to_status : String
  changed_by : Nat
deriving Repr, DecidableEq

/-- The state fragment `complete_batch` reads and writes. -/
structure C6State where
  mo : MORec
  batches : List BatchRec
  execs : List ExecRec
  history : List MOStatusHistoryRow
deriving Repr, DecidableEq

/-- `sum(b.actual_quantity_completed for b in mo.batches.filter(status='completed'))`
(core_views.py:2739). -/
def sumCompletedQty (bs : List BatchRec) : ℚ :=
  (bs.filter (fun b => b.status == "completed")).foldr
    (fun b acc => b.actual_quantity_completed + acc) 0

/-- The batch rewrite of `complete_batch` (core_views.py:2730-2735):
status `completed`, end date, the submitted (or planned) completed
quantity, the submitted scrap, progress 100. -/
def batchesAfterMoComplete (bs : List BatchRec) (batchId : Nat)
    (actual_quantity : Option ℚ) (scrap : ℚ) (now : Nat) : List BatchRec :=
  updateBatch bs batchId (fun b =>
    { b with
      status := "completed"
      actual_end_date := some now
      actual_quantity_completed :=
        match actual_quantity with
        | some q => q
        | none => b.planned_quantity
      scrap_quantity := scrap
      progress_percentage := 100 })

/-- Embedding of `BatchViewSet.complete_batch` (core_views.py:2718-2755):
guard the batch status, mark the batch completed, then — whenever the
aggregate completed quantity reaches `mo.quantity` — set the MO to
`completed` with `actual_end_date` and write a history row hard-coded as
`in_progress → completed`, with no check of the MO's own status and no
check of its process executions. -/
def completeBatchAction (s : C6State) (batchId : Nat)
    (actual_quantity : Option ℚ) (scrap : ℚ) (user now : Nat) : C6State :=
  match findBatch s.batches batchId with
  | none => s
  | some batch =>
      if batch.status = "in_process" ∨ batch.status = "quality_check" then
        let bs2 := batchesAfterMoComplete s.batches batchId actual_quantity
          scrap now
        if s.mo.quantity ≤ sumCompletedQty bs2 then
          { s with
            batches := bs2
            mo := { s.mo with
              status := "completed"
              actual_end_date := some now }
            history := s.history ++
              [{ mo := s.mo.id, from_status := "in_progress",
                 to_status := "completed", changed_by := user }] }
        else
          { s with batches := bs2 }
      else
        s

/-- C6 (amended): once the batch guard passes, `complete_batch` sets the MO
to `completed` exactly when the aggregate completed-batch quantity reaches
the target (or the MO already was `completed`), regardless of the MO's
previous status; the process executions are never consulted or changed; and
the completing transition sets `actual_end_date` and writes a history row
whose `from_status` is hard-coded to `in_progress`. -/
theorem mo_complete_without_guards (s : C6State) (batchId : Nat)
    (actual_quantity : Option ℚ) (scrap : ℚ) (user now : Nat)
    (batch : BatchRec) (hb : findBatch s.batches batchId = some batch)
    (hst : batch.status = "in_process" ∨ batch.status = "quality_check") :
    ((completeBatchAction s batchId actual_quantity scrap user now).mo.status =
        "completed" ↔
      (s.mo.quantity ≤ sumCompletedQty
          (batchesAfterMoComplete s.batches batchId actual_quantity scrap now) ∨
        s.mo.status = "completed")) ∧
    (completeBatchAction s batchId actual_quantity scrap user now).execs =
      s.execs ∧
    (s.mo.quantity ≤ sumCompletedQty
        (batchesAfterMoComplete s.batches batchId actual_quantity scrap now) →
      (completeBatchAction s batchId actual_quantity scrap user
          now).mo.actual_end_date = some now ∧
      (completeBatchAction s batchId actual_quantity scrap user now).history =
        s.history ++
          [{ mo := s.mo.id, from_status := "in_progress",
             to_status := "completed", changed_by := user }]) := by
  have hrw : completeBatchAction s batchId actual_quantity scrap user now =
      (if s.mo.quantity ≤ sumCompletedQty
          (batchesAfterMoComplete s.batches batchId actual_quantity scrap now)
        then
          { s with
            batches := batchesAfterMoComplete s.batches batchId
              actual_quantity scrap now
            mo := { s.mo with
              status := "completed"
              actual_end_date := some now }
            history := s.history ++
              [{ mo := s.mo.id, from_status := "in_progress",
                 to_status := "completed", changed_by := user }] }
        else
          { s with batches := (batchesAfterMoComplete s.batches batchId actual_quantity scrap now) }) := by
    unfold completeBatchAction
    rw [hb]
    exact if_pos hst
  rw [hrw]
  by_cases hq : s.mo.quantity ≤ sumCompletedQty
      (batchesAfterMoComplete s.batches batchId actual_quantity scrap now)
  · rw [if_pos hq]
    exact ⟨⟨fun _ => Or.inl hq, fun _ => rfl⟩, rfl, fun _ => ⟨rfl, rfl⟩⟩
  · rw [if_neg hq]
    refine ⟨⟨fun h => Or.inr h, ?_⟩, rfl, fun h => absurd h hq⟩
    intro h
    rcases h with h | h
    · exact absurd h hq
    · exact h

/-- Counterexample for C6 as stated: an MO in `on_hold` with a `pending`
process execution is flipped straight to `completed` by `complete_batch`
the moment its single batch reports the target quantity — so the
transition neither requires `in_progress` nor that every process execution
is completed (and the history row falsely claims `in_progress` as the
origin). -/
theorem mo_complete_counterexample :
    (completeBatchAction
      { mo := { id := 1, status := "on_hold", priority := "medium",
                quantity := 100, tolerance_percentage := none,
                rm_required_kg := 5 },
        batches := [{ id := 11, status := "in_process",
                      planned_quantity := 100, notes := [] }],
        execs := [{ id := 1, mo := 1, process := 4, sequence_order := 1,
                    status := "pending", progress_percentage := 0,
                    actual_end_time := none }],
        history := [] } 11 none 0 5 100).mo.status = "completed" ∧
    (completeBatchAction
      { mo := { id := 1, status := "on_hold", priority := "medium",
                quantity := 100, tolerance_percentage := none,
                rm_required_kg := 5 },
        batches := [{ id := 11, status := "in_process",
                      planned_quantity := 100, notes := [] }],
        execs := [{ id := 1, mo := 1, process := 4, sequence_order := 1,
                    status := "pending", progress_percentage := 0,
                    actual_end_time := none }],
        history := [] } 11 none 0 5 100).execs.map (fun e => e.status) =
      ["pending"] ∧
    (completeBatchAction
      { mo := { id := 1, status := "on_hold", priority := "medium",
                quantity := 100, tolerance_percentage := none,
                rm_required_kg := 5 },
        batches := [{ id := 11, status := "in_process",
                      planned_quantity := 100, notes := [] }],
        execs := [{ id := 1, mo := 1, process := 4, sequence_order := 1,
                    status := "pending", progress_percentage := 0,
                    actual_end_time := none }],
        history := [] } 11 none 0 5 100).history.map
      (fun h => (h.from_status, h.to_status)) =
      [("in_progress", "completed")] := by
  refine ⟨?_, ?_, ?_⟩ <;>
    norm_num [completeBatchAction, batchesAfterMoComplete, findBatch,
      updateBatch, sumCompletedQty, List.filter_cons, List.filter_nil,
      List.foldr_cons, List.foldr_nil]

/-- Witness for C6 at the counterexample state: the guard hypotheses hold
and the amended equivalence applies. -/
theorem mo_complete_without_guards_witness :
    ((completeBatchAction
      { mo := { id := 1, status := "on_hold", priority := "medium",
                quantity := 100, tolerance_percentage := none,
                rm_required_kg := 5 },
        batches := [{ id := 11, status := "in_process",
                      planned_quantity := 100, notes := [] }],
        execs := [{ id := 1, mo := 1, process := 4, sequence_order := 1,
                    status := "pending", progress_percentage := 0,
                    actual_end_time := none }],
        history := [] } 11 none 0 5 100).mo.status = "completed" ↔
      (((100 : ℚ)) ≤ sumCompletedQty
          (batchesAfterMoComplete
            [{ id := 11, status := "in_process", planned_quantity := 100,
               notes := [] }] 11 none 0 100) ∨
        ("on_hold" : String) = "completed")) :=
  (mo_complete_without_guards
    { mo := { id := 1, status := "on_hold", priority := "medium",
              quantity := 100, tolerance_percentage := none,
              rm_required_kg := 5 },
      batches := [{ id := 11, status := "in_process",
                    planned_quantity := 100, notes := [] }],
      execs := [{ id := 1, mo := 1, process := 4, sequence_order := 1,
                  status := "pending", progress_percentage := 0,
                  actual_end_time := none }],
      history := [] } 11 none 0 5 100
    { id := 11, status := "in_process", planned_quantity := 100, notes := [] }
    rfl (Or.inl rfl)).1

/-! ## Supervisor logout cascade (C9)

`_reassign_supervisor_work` (authentication/views.py:137-280),
`_find_backup_supervisor` (authentication/views.py:283-326),
`_log_supervisor_change` (authentication/views.py:329-365) and the two
notification helpers (authentication/views.py:368-454). -/

/-- Row of `MOSupervisorOverride` as the cascade reads it. -/
structure OverrideRec where
  mo : Nat
  process : Nat
  shift : String
  is_active : Bool
  backup_supervisor : Option Nat
deriving Repr, DecidableEq

/-- Row of `WorkCenterSupervisorShift` as the cascade reads it (primary and
backup are non-nullable columns). -/
structure ShiftConfigRec where
  work_center : Nat
  shift : String
  is_active : Bool
  primary_supervisor : Nat
  backup_supervisor : Nat
deriving Repr, DecidableEq

/-- Row of `LoginSession` as the cascade reads it. -/
structure SessionRec where
  user : Nat
  is_active : Bool
  logout_time : Option Nat
deriving Repr, DecidableEq

/-- Row of `SupervisorChangeLog` as `_log_supervisor_change` writes it
(`to_supervisor` is non-nullable, which is why unassignments are never
logged there). -/
structure ChangeLogRow where
  execId : Nat
  from_supervisor : Option Nat
  to_supervisor : Nat
  reason : String
  shift : String
deriving Repr, DecidableEq

/-- A `WorkflowNotification` row; `priority` is `none` when the call site
does not pass one (the column default applies). -/
structure NotificationRow where
  recipient : Nat
  ntype : String
  priority : Option String
deriving Repr, DecidableEq

/-- One entry of the reassignment summary returned to the caller. -/
structure SummaryEntry where
  mo : Nat
  process : Nat
  status : String
deriving Repr, DecidableEq

/-- The tables the cascade reads, plus the wall-clock shift derivation
(`execution._get_current_shift()`), abstracted as a function from the
execution's work centre to the current shift name. -/
structure AuthEnv where
  overrides : List OverrideRec
  shiftConfigs : List ShiftConfigRec
  sessions : List SessionRec
  production_heads : List Nat
  managers : List Nat
  shiftOf : Nat → String

/-- Embedding of `_find_backup_supervisor` (authentication/views.py:283-326):
an active MO-specific override with a backup wins; otherwise the
work-centre shift configuration's backup is returned only when the
logging-out supervisor is that configuration's primary (a logging-out
backup, or a supervisor who is neither, yields no backup). -/
def findBackupSupervisor (env : AuthEnv) (work_center : Nat) (shift : String)
    (primary : Nat) (mo : Option Nat) : Option Nat :=
  let fromOverride : Option Nat :=
    match mo with
    | none => none
    | some moId =>
        match env.overrides.find? (fun o =>
            o.mo == moId && o.process == work_center && o.shift == shift &&
              o.is_active) with
        | some o => o.backup_supervisor
        | none => none
  match fromOverride with
  | some b => some b
  | none =>
      match env.shiftConfigs.find? (fun c =>
          c.work_center == work_center && c.shift == shift && c.is_active) with
      | some cfg =>
          if cfg.primary_supervisor = primary then some cfg.backup_supervisor
          else none
      | none => none

/-- `LoginSession.objects.filter(user=..., is_active=True,
logout_time__isnull=True).exists()` (authentication/views.py:178-182). -/
def isLoggedIn (env : AuthEnv) (u : Nat) : Bool :=
  env.sessions.any (fun se =>
    se.user == u && se.is_active && se.logout_time == none)

/-- The cascade's queryset filter (authentication/views.py:150-153):
status in pending / in_progress / on_hold and assigned to the logging-out
supervisor. -/
def cascadeSelected (u : Nat) (e : ExecRec) : Bool :=
  (e.status == "pending" || e.status == "in_progress" ||
    e.status == "on_hold") && e.assigned_supervisor == some u

/-- The high-priority unassignment notifications sent to every production
head and manager (authentication/views.py:401-454). -/
def unassignedNotifications (env : AuthEnv) : List NotificationRow :=
  (env.production_heads ++ env.managers).map (fun r =>
    { recipient := r, ntype := "supervisor_reassignment",
      priority := some "high" })

/-- Per-execution processing of `_reassign_supervisor_work`
(authentication/views.py:161-278): resolve a backup; a logged-in backup is
assigned, logged (reason `attendance_absence`) and notified; otherwise the
execution is unassigned with NO change-log row and the production heads and
managers are notified with high priority.  Returns the rewritten execution
and the change-log rows, notifications and summary entries it emits. -/
def cascadeStep (env : AuthEnv) (u : Nat) (e : ExecRec) :
    ExecRec × List ChangeLogRow × List NotificationRow × List SummaryEntry :=
  match findBackupSupervisor env e.process (env.shiftOf e.process) u
      (some e.mo) with
  | some b =>
      if isLoggedIn env b then
        ({ e with assigned_supervisor := some b },
         [{ execId := e.id, from_supervisor := some u, to_supervisor := b,
            reason := "attendance_absence", shift := env.shiftOf e.process }],
         [{ recipient := b, ntype := "supervisor_assigned", priority := none }],
         [{ mo := e.mo, process := e.process,
            status := "reassigned_to_backup" }])
      else
        ({ e with assigned_supervisor := none }, [],
         unassignedNotifications env,
         [{ mo := e.mo, process := e.process,
            status := "unassigned_backup_unavailable" }])
  | none =>
      ({ e with assigned_supervisor := none }, [],
       unassignedNotifications env,
       [{ mo := e.mo, process := e.process,
          status := "unassigned_no_backup" }])

/-- The cascade's aggregate output. -/
structure CascadeOut where
  execs : List ExecRec
  changeLogs : List ChangeLogRow
  notifications : List NotificationRow
  summary : List SummaryEntry
deriving Repr, DecidableEq

/-- Embedding of `_reassign_supervisor_work`
(authentication/views.py:137-280): process each selected execution with
`cascadeStep`, leaving the others untouched, concatenating the emitted
rows in iteration order. -/
def reassignSupervisorWork (env : AuthEnv) (u : Nat) :
    List ExecRec → CascadeOut
  | [] => { execs := [], changeLogs := [], notifications := [], summary := [] }
  | e :: rest =>
      let tail := reassignSupervisorWork env u rest
      if cascadeSelected u e then
        let r := cascadeStep env u e
        { execs := r.1 :: tail.execs,
          changeLogs := r.2.1 ++ tail.changeLogs,
          notifications := r.2.2.1 ++ tail.notifications,
          summary := r.2.2.2 ++ tail.summary }
      else
        { execs := e :: tail.execs, changeLogs := tail.changeLogs,
          notifications := tail.notifications, summary := tail.summary }

theorem cascadeStep_summary_len (env : AuthEnv) (u : Nat) (e : ExecRec) :
    (cascadeStep env u e).2.2.2.length = 1 := by
  unfold cascadeStep
  cases hfb : findBackupSupervisor env e.process (env.shiftOf e.process) u
      (some e.mo) with
  | none => rfl
  | some b =>
      by_cases hlog : isLoggedIn env b = true
      · simp only [hlog, if_true]
        rfl
      · simp only [hlog, if_false, Bool.false_eq_true]
        rfl

/-- C9 (amended): the logout cascade processes exactly the pending /
in-progress / on-hold executions assigned to the logging-out supervisor —
one summary entry each, others untouched.  A backup is resolved from the
MO override's backup, else from the work-centre shift configuration's
backup but only when the logging-out user is that configuration's primary.
A logged-in backup is assigned with one `attendance_absence` change-log row
and a notification to the backup; otherwise the execution is unassigned
with NO Supervisor Change Log row, and every production head and manager
receives a high-priority notification. -/
theorem logout_cascade_behaviour (env : AuthEnv) (u : Nat)
    (execs : List ExecRec) :
    (reassignSupervisorWork env u execs).summary.length =
      (execs.filter (cascadeSelected u)).length ∧
    (∀ e ∈ execs, cascadeSelected u e = false →
      e ∈ (reassignSupervisorWork env u execs).execs) ∧
    (∀ e : ExecRec, ∀ b : Nat,
      findBackupSupervisor env e.process (env.shiftOf e.process) u
        (some e.mo) = some b →
      isLoggedIn env b = true →
      cascadeStep env u e =
        ({ e with assigned_supervisor := some b },
         [{ execId := e.id, from_supervisor := some u, to_supervisor := b,
            reason := "attendance_absence",
            shift := env.shiftOf e.process }],
         [{ recipient := b, ntype := "supervisor_assigned",
            priority := none }],
         [{ mo := e.mo, process := e.process,
            status := "reassigned_to_backup" }])) ∧
    (∀ e : ExecRec, ∀ b : Nat,
      findBackupSupervisor env e.process (env.shiftOf e.process) u
        (some e.mo) = some b →
      isLoggedIn env b = false →
      cascadeStep env u e =
        ({ e with assigned_supervisor := none }, [],
         unassignedNotifications env,
         [{ mo := e.mo, process := e.process,
            status := "unassigned_backup_unavailable" }])) ∧
    (∀ e : ExecRec,
      findBackupSupervisor env e.process (env.shiftOf e.process) u
        (some e.mo) = none →
      cascadeStep env u e =
        ({ e with assigned_supervisor := none }, [],
         unassignedNotifications env,
         [{ mo := e.mo, process := e.process,
            status := "unassigned_no_backup" }])) ∧
    (∀ r ∈ env.production_heads ++ env.managers,
      ({ recipient := r, ntype := "supervisor_reassignment",
         priority := some "high" } : NotificationRow) ∈
        unassignedNotifications env) := by
  refine ⟨?_, ?_, ?_, ?_, ?_, ?_⟩
  · induction execs with
    | nil => rfl
    | cons e rest ih =>
        by_cases hsel : cascadeSelected u e = true
        · simp only [reassignSupervisorWork, hsel, if_true,
            List.filter_cons_of_pos, List.length_cons, List.length_append,
            cascadeStep_summary_len]
          omega
        · have hsel2 : cascadeSelected u e = false := by
            cases h : cascadeSelected u e
            · rfl
            · exact absurd h hsel
          simp only [reassignSupervisorWork, hsel2, Bool.false_eq_true,
            if_false, List.filter_cons]
          exact ih
  · induction execs with
    | nil =>
        intro e he
        cases he
    | cons x rest ih =>
        intro e he hns
        simp only [reassignSupervisorWork]
        rcases List.mem_cons.mp he with hex | her
        · subst hex
          rw [hns]
          simp only [Bool.false_eq_true, if_false]
          exact List.mem_cons_self _ _
        · by_cases hx : cascadeSelected u x = true
          · simp only [hx, if_true]
            exact List.mem_cons_of_mem _ (ih e her hns)
          · have hx2 : cascadeSelected u x = false := by
              cases h : cascadeSelected u x
              · rfl
              · exact absurd h hx
            simp only [hx2, Bool.false_eq_true, if_false]
            exact List.mem_cons_of_mem _ (ih e her hns)
  · intro e b hfb hlog
    unfold cascadeStep
    rw [hfb]
    simp only [hlog, if_true]
  · intro e b hfb hlog
    unfold cascadeStep
    rw [hfb]
    simp only [hlog, Bool.false_eq_true, if_false]
  · intro e hfb
    unfold cascadeStep
    rw [hfb]
  · intro r hr
    exact List.mem_map.mpr ⟨r, hr, rfl⟩

/-- Cascade environment with one active shift configuration (work centre 4,
primary 9, backup 7), no overrides, nobody logged in, production head 2 and
manager 3. -/
def envC9 : AuthEnv :=
  { overrides := [],
    shiftConfigs := [{ work_center := 4, shift := "shift_1", is_active := true,
                       primary_supervisor := 9, backup_supervisor := 7 }],
    sessions := [],
    production_heads := [2],
    managers := [3],
    shiftOf := fun _ => "shift_1" }

/-- As `envC9`, but supervisor 9 is neither primary nor backup of the
configuration. -/
def envC9b : AuthEnv :=
  { envC9 with
    shiftConfigs := [{ work_center := 4, shift := "shift_1", is_active := true,
                       primary_supervisor := 8, backup_supervisor := 7 }] }

/-- An in-progress execution assigned to supervisor 9. -/
def execC9 : ExecRec :=
  { id := 1, mo := 1, process := 4, sequence_order := 1,
    status := "in_progress", progress_percentage := 0,
    actual_end_time := none, assigned_supervisor := some 9 }

/-- Counterexample for C9 as stated: supervisor 9 logs out while the
work-centre backup (7) is not logged in — the execution is unassigned and
the production heads and managers are notified, but NO Supervisor Change
Log row is written (the claim's "the unassignment is logged", read with the
spec's "every resolution outcome writes a Supervisor Change Log row",
fails); and when the logging-out supervisor is neither the primary nor the
backup of the shift configuration, no backup is resolved at all even
though the configuration names one — refuting "a backup is resolved
(MO-specific override backup first, else the work-centre shift
configuration's backup)". -/
theorem logout_cascade_counterexample :
    (reassignSupervisorWork envC9 9 [execC9]).changeLogs = [] ∧
    (reassignSupervisorWork envC9 9 [execC9]).execs.map
      (fun e => e.assigned_supervisor) = [none] ∧
    (reassignSupervisorWork envC9 9 [execC9]).summary.map
      (fun en => en.status) = ["unassigned_backup_unavailable"] ∧
    findBackupSupervisor envC9b 4 "shift_1" 9 (some 1) = none ∧
    (envC9b.shiftConfigs.map (fun c => c.backup_supervisor)) = [7] := by
  refine ⟨?_, ?_, ?_, ?_, ?_⟩ <;>
    simp [reassignSupervisorWork, cascadeStep, cascadeSelected,
      findBackupSupervisor, isLoggedIn, unassignedNotifications, envC9,
      envC9b, execC9]

/-- Witness for C9: the amended cascade facts instantiated at `envC9` —
the summary has one entry for the one selected execution, and the
not-logged-in backup case unassigns with no change-log row and the
high-priority notifications. -/
theorem logout_cascade_behaviour_witness :
    (reassignSupervisorWork envC9 9 [execC9]).summary.length =
      ([execC9].filter (cascadeSelected 9)).length ∧
    cascadeStep envC9 9 execC9 =
      ({ execC9 with assigned_supervisor := none }, [],
       unassignedNotifications envC9,
       [{ mo := execC9.mo, process := execC9.process,
          status := "unassigned_backup_unavailable" }]) ∧
    ({ recipient := 3, ntype := "supervisor_reassignment",
       priority := some "high" } : NotificationRow) ∈
      unassignedNotifications envC9 := by
  refine ⟨(logout_cascade_behaviour envC9 9 [execC9]).1, ?_, ?_⟩
  · refine (logout_cascade_behaviour envC9 9 [execC9]).2.2.2.1 execC9 7 ?_ ?_
    · simp [findBackupSupervisor, envC9, execC9]
    · simp [isLoggedIn, envC9]
  · refine (logout_cascade_behaviour envC9 9 [execC9]).2.2.2.2.2 3 ?_
    simp [envC9]

end MSIMS
